import Mathlib

/-!
Verification of the PDF-to-QuickBooks pipeline against its specification.

The definitions below are shallow embeddings of the TypeScript source:
* `src/lib/transaction-classifier.ts` (rule-based fallback classifier),
* `src/app/api/batches/[batchId]/export-csv/route.ts` (CSV generation),
* `src/app/api/extractions/[extractionId]/route.ts` (field validators),
* `src/app/api/batch-processing/complete/route.ts` and the batch creation
  route (batch lifecycle).

JavaScript numbers are modelled as exact rationals (`Rat`) plus signed
infinity; strings are Lean `String`s.  `toLowerCase` is modelled on the
ASCII range via `Char.toLower`.
-/

/-- Decides whether `xs` is a prefix of `ys` (character lists). -/
def isPrefixOfL : List Char → List Char → Bool
  | [], _ => true
  | _ :: _, [] => false
  | c :: cs, d :: ds => c == d && isPrefixOfL cs ds

/-- Substring search on character lists: does `hay` contain `needle`
as a contiguous run?  Models JavaScript `String.prototype.includes`. -/
def includesL : List Char → List Char → Bool
  | [], needle => isPrefixOfL needle []
  | h :: t, needle => isPrefixOfL needle (h :: t) || includesL t needle

/-- JavaScript `hay.includes(needle)`. -/
def jsIncludes (hay needle : String) : Bool :=
  includesL hay.toList needle.toList

/-- JavaScript `toLowerCase`, modelled on the ASCII range: lowercase every
character of the string. -/
def jsToLower (s : String) : String := ⟨s.data.map Char.toLower⟩

theorem isPrefixOfL_iff (xs ys : List Char) :
    isPrefixOfL xs ys = true ↔ xs <+: ys := by
  induction xs generalizing ys with
  | nil => simp [isPrefixOfL]
  | cons c cs ih =>
    cases ys with
    | nil => simp [isPrefixOfL]
    | cons d ds =>
      rw [List.cons_prefix_cons]
      simp [isPrefixOfL, ih]

theorem includesL_iff (hay needle : List Char) :
    includesL hay needle = true ↔ needle <:+: hay := by
  induction hay with
  | nil =>
    cases needle <;> simp [includesL, isPrefixOfL]
  | cons h t ih =>
    rw [List.infix_cons_iff]
    simp [includesL, ih, isPrefixOfL_iff, Or.comm]

theorem jsIncludes_iff (hay needle : String) :
    jsIncludes hay needle = true ↔ needle.toList <:+: hay.toList := by
  exact includesL_iff hay.toList needle.toList

/-- Transaction direction. -/
inductive TxType where
  | income
  | expense
deriving DecidableEq, Repr

/-- Result record of the classifier (`ClassificationResult` in
`src/lib/transaction-classifier.ts`); `confidence` is a JS number,
modelled as a rational. -/
structure ClassificationResult where
  transaction_type : TxType
  confidence : Rat
  reasoning : String
deriving DecidableEq, Repr

/-- The income keyword list of `fallbackClassification`. -/
def incomeKeywords : List String :=
  ["payment received", "invoice", "deposit", "revenue", "sale", "income"]

/-- The expense keyword list of `fallbackClassification`. -/
def expenseKeywords : List String :=
  ["purchase", "payment to", "bill", "expense", "cost", "fee"]

/-- Shallow embedding of `fallbackClassification` from
`src/lib/transaction-classifier.ts`: rule-based income/expense
classification used when the AI call fails. -/
def fallbackClassification (vendor description accountName : String) :
    ClassificationResult :=
  let vendorLower := jsToLower vendor
  let descriptionLower := jsToLower description
  let accountLower := jsToLower accountName
  let vendorMatchesAccount :=
    jsIncludes vendorLower accountLower || jsIncludes accountLower vendorLower ||
      vendorLower == accountLower
  if vendorMatchesAccount then
    { transaction_type := TxType.income, confidence := 7/10,
      reasoning := "Vendor name matches account name - likely client payment" }
  else
    let hasIncomeKeywords := incomeKeywords.any fun keyword =>
      jsIncludes descriptionLower keyword || jsIncludes vendorLower keyword
    if hasIncomeKeywords then
      { transaction_type := TxType.income, confidence := 6/10,
        reasoning := "Contains income-related keywords" }
    else
      let hasExpenseKeywords := expenseKeywords.any fun keyword =>
        jsIncludes descriptionLower keyword || jsIncludes vendorLower keyword
      if hasExpenseKeywords then
        { transaction_type := TxType.expense, confidence := 6/10,
          reasoning := "Contains expense-related keywords" }
      else
        { transaction_type := TxType.expense, confidence := 3/10,
          reasoning := "Default classification - no clear indicators found" }

/-- Spec-level reading of rule (1): a case-insensitive substring match in
either direction between vendor and account name. -/
def specAccountMatch (vendor accountName : String) : Prop :=
  (jsToLower vendor).toList <:+: (jsToLower accountName).toList ∨
    (jsToLower accountName).toList <:+: (jsToLower vendor).toList

/-- Spec-level reading of rule (2): the description or the vendor contains
an income keyword (case-insensitively). -/
def specHasIncomeKeyword (vendor description : String) : Prop :=
  ∃ keyword ∈ incomeKeywords,
    keyword.toList <:+: (jsToLower description).toList ∨
      keyword.toList <:+: (jsToLower vendor).toList

/-- Spec-level reading of rule (3): the description or the vendor contains
an expense keyword (case-insensitively). -/
def specHasExpenseKeyword (vendor description : String) : Prop :=
  ∃ keyword ∈ expenseKeywords,
    keyword.toList <:+: (jsToLower description).toList ∨
      keyword.toList <:+: (jsToLower vendor).toList

theorem vendorMatchesAccount_iff (vendor accountName : String) :
    (jsIncludes (jsToLower vendor) (jsToLower accountName) ||
      jsIncludes (jsToLower accountName) (jsToLower vendor) ||
      jsToLower vendor == jsToLower accountName) = true ↔
    specAccountMatch vendor accountName := by
  unfold specAccountMatch
  simp only [Bool.or_eq_true, beq_iff_eq, jsIncludes_iff]
  constructor
  · rintro ((h | h) | h)
    · right; exact h
    · left; exact h
    · left; rw [h]
  · rintro (h | h)
    · left; right; exact h
    · left; left; exact h

theorem keywordScan_iff (vendor description : String) (kws : List String) :
    (kws.any fun keyword =>
      jsIncludes (jsToLower description) keyword ||
        jsIncludes (jsToLower vendor) keyword) = true ↔
    ∃ keyword ∈ kws,
      keyword.toList <:+: (jsToLower description).toList ∨
        keyword.toList <:+: (jsToLower vendor).toList := by
  simp only [List.any_eq_true, Bool.or_eq_true, jsIncludes_iff]

theorem hasIncomeKeywords_iff (vendor description : String) :
    (incomeKeywords.any fun keyword =>
      jsIncludes (jsToLower description) keyword ||
        jsIncludes (jsToLower vendor) keyword) = true ↔
    specHasIncomeKeyword vendor description := by
  rw [keywordScan_iff]
  exact Iff.rfl

theorem hasExpenseKeywords_iff (vendor description : String) :
    (expenseKeywords.any fun keyword =>
      jsIncludes (jsToLower description) keyword ||
        jsIncludes (jsToLower vendor) keyword) = true ↔
    specHasExpenseKeyword vendor description := by
  rw [keywordScan_iff]
  exact Iff.rfl

instance (vendor accountName : String) :
    Decidable (specAccountMatch vendor accountName) :=
  decidable_of_iff
    ((jsIncludes (jsToLower accountName) (jsToLower vendor) ||
      jsIncludes (jsToLower vendor) (jsToLower accountName)) = true) (by
    simp only [Bool.or_eq_true, jsIncludes_iff, specAccountMatch])

instance (vendor description : String) :
    Decidable (specHasIncomeKeyword vendor description) :=
  decidable_of_iff _ (hasIncomeKeywords_iff vendor description)

instance (vendor description : String) :
    Decidable (specHasExpenseKeyword vendor description) :=
  decidable_of_iff _ (hasExpenseKeywords_iff vendor description)

theorem fallback_match_income (vendor description accountName : String)
    (h : specAccountMatch vendor accountName) :
    (fallbackClassification vendor description accountName).transaction_type =
      TxType.income ∧
    (fallbackClassification vendor description accountName).confidence = 7/10 := by
  have hb := (vendorMatchesAccount_iff vendor accountName).mpr h
  simp only [fallbackClassification, hb, if_true]
  exact ⟨trivial, trivial⟩

theorem fallback_income_kw (vendor description accountName : String)
    (hm : ¬ specAccountMatch vendor accountName)
    (hk : specHasIncomeKeyword vendor description) :
    (fallbackClassification vendor description accountName).transaction_type =
      TxType.income ∧
    (fallbackClassification vendor description accountName).confidence = 6/10 := by
  have hb : (jsIncludes (jsToLower vendor) (jsToLower accountName) ||
      jsIncludes (jsToLower accountName) (jsToLower vendor) ||
      jsToLower vendor == jsToLower accountName) = false := by
    cases hc : (jsIncludes (jsToLower vendor) (jsToLower accountName) ||
        jsIncludes (jsToLower accountName) (jsToLower vendor) ||
        jsToLower vendor == jsToLower accountName)
    · rfl
    · exact absurd ((vendorMatchesAccount_iff vendor accountName).mp hc) hm
  have hkb := (hasIncomeKeywords_iff vendor description).mpr hk
  simp only [fallbackClassification, hb, hkb, if_true, if_false, Bool.false_eq_true]
  exact ⟨trivial, trivial⟩

theorem fallback_expense_kw (vendor description accountName : String)
    (hm : ¬ specAccountMatch vendor accountName)
    (hik : ¬ specHasIncomeKeyword vendor description)
    (hek : specHasExpenseKeyword vendor description) :
    (fallbackClassification vendor description accountName).transaction_type =
      TxType.expense ∧
    (fallbackClassification vendor description accountName).confidence = 6/10 := by
  have hb : (jsIncludes (jsToLower vendor) (jsToLower accountName) ||
      jsIncludes (jsToLower accountName) (jsToLower vendor) ||
      jsToLower vendor == jsToLower accountName) = false := by
    cases hc : (jsIncludes (jsToLower vendor) (jsToLower accountName) ||
        jsIncludes (jsToLower accountName) (jsToLower vendor) ||
        jsToLower vendor == jsToLower accountName)
    · rfl
    · exact absurd ((vendorMatchesAccount_iff vendor accountName).mp hc) hm
  have hib : (incomeKeywords.any fun keyword =>
      jsIncludes (jsToLower description) keyword ||
        jsIncludes (jsToLower vendor) keyword) = false := by
    cases hc : (incomeKeywords.any fun keyword =>
        jsIncludes (jsToLower description) keyword ||
          jsIncludes (jsToLower vendor) keyword)
    · rfl
    · exact absurd ((hasIncomeKeywords_iff vendor description).mp hc) hik
  have hkb := (hasExpenseKeywords_iff vendor description).mpr hek
  simp only [fallbackClassification, hb, hib, hkb, if_true, if_false,
    Bool.false_eq_true]
  exact ⟨trivial, trivial⟩

theorem fallback_default (vendor description accountName : String)
    (hm : ¬ specAccountMatch vendor accountName)
    (hik : ¬ specHasIncomeKeyword vendor description)
    (hek : ¬ specHasExpenseKeyword vendor description) :
    (fallbackClassification vendor description accountName).transaction_type =
      TxType.expense ∧
    (fallbackClassification vendor description accountName).confidence = 3/10 := by
  have hb : (jsIncludes (jsToLower vendor) (jsToLower accountName) ||
      jsIncludes (jsToLower accountName) (jsToLower vendor) ||
      jsToLower vendor == jsToLower accountName) = false := by
    cases hc : (jsIncludes (jsToLower vendor) (jsToLower accountName) ||
        jsIncludes (jsToLower accountName) (jsToLower vendor) ||
        jsToLower vendor == jsToLower accountName)
    · rfl
    · exact absurd ((vendorMatchesAccount_iff vendor accountName).mp hc) hm
  have hib : (incomeKeywords.any fun keyword =>
      jsIncludes (jsToLower description) keyword ||
        jsIncludes (jsToLower vendor) keyword) = false := by
    cases hc : (incomeKeywords.any fun keyword =>
        jsIncludes (jsToLower description) keyword ||
          jsIncludes (jsToLower vendor) keyword)
    · rfl
    · exact absurd ((hasIncomeKeywords_iff vendor description).mp hc) hik
  have heb : (expenseKeywords.any fun keyword =>
      jsIncludes (jsToLower description) keyword ||
        jsIncludes (jsToLower vendor) keyword) = false := by
    cases hc : (expenseKeywords.any fun keyword =>
        jsIncludes (jsToLower description) keyword ||
          jsIncludes (jsToLower vendor) keyword)
    · rfl
    · exact absurd ((hasExpenseKeywords_iff vendor description).mp hc) hek
  simp only [fallbackClassification, hb, hib, heb, if_true, if_false,
    Bool.false_eq_true]
  exact ⟨trivial, trivial⟩

/-- C5: the rule-based fallback classifier applies its rules in strict
priority order: (1) a case-insensitive substring match in either direction
between vendor and account name yields income with confidence 0.7 (so a
vendor exactly equal to the account name yields income 0.7 regardless of
the description); (2) otherwise an income keyword in description or vendor
yields income 0.6; (3) otherwise an expense keyword yields expense 0.6;
(4) otherwise expense 0.3. -/
theorem claim_C5_fallback_priority (vendor description accountName : String) :
    (specAccountMatch vendor accountName →
      (fallbackClassification vendor description accountName).transaction_type =
        TxType.income ∧
      (fallbackClassification vendor description accountName).confidence = 7/10) ∧
    (¬ specAccountMatch vendor accountName →
      specHasIncomeKeyword vendor description →
      (fallbackClassification vendor description accountName).transaction_type =
        TxType.income ∧
      (fallbackClassification vendor description accountName).confidence = 6/10) ∧
    (¬ specAccountMatch vendor accountName →
      ¬ specHasIncomeKeyword vendor description →
      specHasExpenseKeyword vendor description →
      (fallbackClassification vendor description accountName).transaction_type =
        TxType.expense ∧
      (fallbackClassification vendor description accountName).confidence = 6/10) ∧
    (¬ specAccountMatch vendor accountName →
      ¬ specHasIncomeKeyword vendor description →
      ¬ specHasExpenseKeyword vendor description →
      (fallbackClassification vendor description accountName).transaction_type =
        TxType.expense ∧
      (fallbackClassification vendor description accountName).confidence = 3/10) ∧
    (vendor = accountName →
      (fallbackClassification vendor description accountName).transaction_type =
        TxType.income ∧
      (fallbackClassification vendor description accountName).confidence = 7/10) := by
  refine ⟨fallback_match_income vendor description accountName,
    fallback_income_kw vendor description accountName,
    fallback_expense_kw vendor description accountName,
    fallback_default vendor description accountName, ?_⟩
  intro h
  apply fallback_match_income
  subst h
  exact Or.inl (List.infix_refl _)

theorem claim_C5_witness :
    (fallbackClassification "Acme LLC" "monthly retainer expense fee"
      "acme").transaction_type = TxType.income ∧
    (fallbackClassification "Acme LLC" "monthly retainer expense fee"
      "acme").confidence = 7/10 :=
  (claim_C5_fallback_priority "Acme LLC" "monthly retainer expense fee"
    "acme").1 (by decide)

/-- C10 counterexample: with vendor "abc" and an empty account name the two
strings are not each a substring of the other (the lowered vendor is not an
infix of the empty account name), yet the fallback classifier still returns
income with confidence 0.7; the empty-string cases are therefore not
vacuous instances of a mutual substring match. -/
theorem claim_C10_counterexample :
    ¬ ((jsToLower "abc").toList <:+: (jsToLower "").toList ∧
       (jsToLower "").toList <:+: (jsToLower "abc").toList) ∧
    (fallbackClassification "abc" "purchase payment to bill expense cost fee"
      "").transaction_type = TxType.income ∧
    (fallbackClassification "abc" "purchase payment to bill expense cost fee"
      "").confidence = 7/10 := by
  have h2 := fallback_match_income "abc"
    "purchase payment to bill expense cost fee" "" (Or.inr (by
      rw [show (jsToLower "").toList = [] from rfl]
      exact List.nil_infix))
  refine ⟨?_, h2.1, h2.2⟩
  rintro ⟨h, -⟩
  rw [show (jsToLower "").toList = [] from rfl] at h
  exact absurd (List.infix_nil.mp h) (by decide)

/-- C10 (amended): whenever the lowercased vendor is a substring of the
lowercased account name or vice versa — a condition that includes every
case where either string is empty — the fallback classifier returns income
with confidence 0.7 for every description; in particular an empty account
name (or empty vendor) forces the income classification regardless of any
expense keywords present. -/
theorem claim_C10_empty_forces_income (vendor description accountName : String)
    (h : (jsToLower vendor).toList <:+: (jsToLower accountName).toList ∨
         (jsToLower accountName).toList <:+: (jsToLower vendor).toList ∨
         vendor = "" ∨ accountName = "") :
    (fallbackClassification vendor description accountName).transaction_type =
      TxType.income ∧
    (fallbackClassification vendor description accountName).confidence = 7/10 := by
  apply fallback_match_income
  rcases h with h | h | h | h
  · exact Or.inl h
  · exact Or.inr h
  · subst h
    refine Or.inl ?_
    rw [show (jsToLower "").toList = [] from rfl]
    exact List.nil_infix
  · subst h
    refine Or.inr ?_
    rw [show (jsToLower "").toList = [] from rfl]
    exact List.nil_infix

theorem claim_C10_witness :
    (fallbackClassification "Globex" "purchase payment to bill expense cost fee"
      "").transaction_type = TxType.income ∧
    (fallbackClassification "Globex" "purchase payment to bill expense cost fee"
      "").confidence = 7/10 :=
  claim_C10_empty_forces_income "Globex"
    "purchase payment to bill expense cost fee" ""
    (Or.inr (Or.inr (Or.inr rfl)))

/-- A JavaScript number as used by this pipeline: an exact rational or a
signed infinity (`NaN` is represented by `Option.none` at use sites). -/
inductive JsNum where
  | finite : Rat → JsNum
  | infinity : Bool → JsNum
deriving DecidableEq, Repr

/-- Negation of a rational, built directly on the reduced representation
(so that it evaluates by kernel reduction). -/
def ratNeg (q : Rat) : Rat :=
  ⟨-q.num, q.den, q.den_nz, by rw [Int.natAbs_neg]; exact q.reduced⟩

theorem ratNeg_eq_neg (q : Rat) : ratNeg q = -q := by
  refine Rat.ext ?_ ?_
  · rw [Rat.num_neg_eq_neg_num]
    rfl
  · rw [Rat.den_neg_eq_den]
    rfl

/-- JavaScript unary minus. -/
def jsNeg : JsNum → JsNum
  | JsNum.finite q => JsNum.finite (ratNeg q)
  | JsNum.infinity s => JsNum.infinity (!s)

/-- The whitespace class of JavaScript (`\s` and `trim`), modelled by its
common members. -/
def isJsSpace (c : Char) : Bool :=
  c == ' ' || c == '\t' || c == '\n' || c == '\r' ||
    c == '\x0b' || c == '\x0c' || c == '\u00a0'

/-- Characters removed by the amount-cleaning regex `[$,\s]` used both by
the amount validator and the CSV generators. -/
def isStrippedChar (c : Char) : Bool :=
  c == '$' || c == ',' || isJsSpace c

/-- JavaScript `s.replace(/[$,\s]/g, '')`: drop dollar signs, commas and
whitespace. -/
def stripCurrency (s : String) : String :=
  ⟨s.data.filter fun c => !isStrippedChar c⟩

/-- JavaScript `trim` on a character list. -/
def trimL (cs : List Char) : List Char :=
  ((cs.dropWhile isJsSpace).reverse.dropWhile isJsSpace).reverse

/-- Numeric value of a decimal digit character. -/
def digitVal (c : Char) : Nat := c.toNat - 48

/-- Value of a list of decimal digit characters, most significant first. -/
def digitsToNat (ds : List Char) : Nat :=
  ds.foldl (fun acc c => 10 * acc + digitVal c) 0

/-- Exponent following a parsed mantissa: `e`/`E`, an optional sign and a
nonempty digit run; `none` when the exponent is absent or malformed (in
which case JavaScript `parseFloat` does not consume it). -/
def parseExpDigits (sgn : Bool) (rest : List Char) : Option Int :=
  let ds := rest.takeWhile Char.isDigit
  if ds.isEmpty then none
  else some (if sgn then -(digitsToNat ds : Int) else (digitsToNat ds : Int))

def parseExp : List Char → Option Int
  | 'e' :: '+' :: rest => parseExpDigits false rest
  | 'e' :: '-' :: rest => parseExpDigits true rest
  | 'e' :: rest => parseExpDigits false rest
  | 'E' :: '+' :: rest => parseExpDigits false rest
  | 'E' :: '-' :: rest => parseExpDigits true rest
  | 'E' :: rest => parseExpDigits false rest
  | _ => none

/-- Mantissa of a decimal literal: integer digits, an optional point and
fraction digits.  Returns the integer-part value, fraction-part value,
fraction length and the unconsumed rest; `none` when no digit is found. -/
def parseMantissa (cs : List Char) : Option (Nat × Nat × Nat × List Char) :=
  let ip := cs.takeWhile Char.isDigit
  let r1 := cs.dropWhile Char.isDigit
  match r1 with
  | '.' :: r2 =>
    let fp := r2.takeWhile Char.isDigit
    let r3 := r2.dropWhile Char.isDigit
    if ip.isEmpty && fp.isEmpty then none
    else some (digitsToNat ip, digitsToNat fp, fp.length, r3)
  | _ =>
    if ip.isEmpty then none else some (digitsToNat ip, 0, 0, r1)

def jsParseFloatAux (sgn : Bool) (cs : List Char) : Option JsNum :=
  if isPrefixOfL ['I', 'n', 'f', 'i', 'n', 'i', 't', 'y'] cs then
    some (JsNum.infinity sgn)
  else
    match parseMantissa cs with
    | none => none
    | some (ip, fp, flen, rest) =>
      let e := (parseExp rest).getD 0
      let m : Int := (ip * 10 ^ flen + fp : Nat)
      let m := if sgn then -m else m
      some (JsNum.finite (if 0 ≤ e then mkRat (m * 10 ^ e.toNat) (10 ^ flen)
        else mkRat m (10 ^ (flen + (-e).toNat))))

/-- JavaScript `parseFloat`: skip leading whitespace, read an optional
sign, then the longest valid decimal (or `Infinity`) prefix; `none` models
`NaN`. -/
def jsParseFloat (s : String) : Option JsNum :=
  match s.data.dropWhile isJsSpace with
  | [] => none
  | c :: rest =>
    if c == '+' then jsParseFloatAux false rest
    else if c == '-' then jsParseFloatAux true rest
    else jsParseFloatAux false (c :: rest)

/-- Character of a decimal digit value. -/
def decDigitChar : Nat → Char
  | 0 => '0' | 1 => '1' | 2 => '2' | 3 => '3' | 4 => '4'
  | 5 => '5' | 6 => '6' | 7 => '7' | 8 => '8' | 9 => '9'
  | _ => '*'

/-- Decimal digit characters of `n`, most significant first (fuel-based so
that it evaluates by kernel reduction). -/
def natDigitsAux : Nat → Nat → List Char
  | 0, _ => []
  | fuel + 1, n =>
    if n < 10 then [decDigitChar n]
    else natDigitsAux fuel (n / 10) ++ [decDigitChar (n % 10)]

def natDigits (n : Nat) : List Char := natDigitsAux (n + 1) n

/-- Fuel-based search for an exponent `k` (starting at `start`) with
`d ∣ 10 ^ k`; returns the last probe when the fuel runs out. -/
def pow10ExpAux : Nat → Nat → Nat → Nat
  | 0, _, start => start
  | fuel + 1, d, start =>
    if 10 ^ start % d = 0 then start else pow10ExpAux fuel d (start + 1)

/-- Smallest exponent `k` with `d ∣ 10 ^ k` (every denominator produced by
`jsParseFloat` divides a power of ten, and its minimal exponent is at most
`d`, so fuel `d + 1` always suffices there). -/
def pow10Exp (d : Nat) : Nat := pow10ExpAux (d + 1) d 0

def padZeros (k : Nat) (ds : List Char) : List Char :=
  List.replicate (k - ds.length) '0' ++ ds

def trimTrailingZeros (ds : List Char) : List Char :=
  (ds.reverse.dropWhile fun c => c == '0').reverse

/-- Decimal rendering of a rational with a power-of-ten denominator:
models JavaScript `Number.prototype.toString` on the exact values this
pipeline produces (integer part, then a fraction part with trailing zeros
trimmed; no exponent notation, which JavaScript uses only outside the
validated range). -/
def ratToString (q : Rat) : String :=
  if q.num = 0 then "0"
  else
    let n := q.num.natAbs
    let k := pow10Exp q.den
    let scaled := n * (10 ^ k / q.den)
    let ipart := scaled / 10 ^ k
    let fpart := scaled % 10 ^ k
    let fracDigits := trimTrailingZeros (padZeros k (natDigits fpart))
    let body := if fracDigits.isEmpty then natDigits ipart
      else natDigits ipart ++ '.' :: fracDigits
    ⟨if q.num < 0 then '-' :: body else body⟩

/-- JavaScript number-to-string conversion. -/
def jsNumToString : JsNum → String
  | JsNum.finite q => ratToString q
  | JsNum.infinity s => if s then "-Infinity" else "Infinity"

/-- JavaScript truthiness for an optional string field (`!x` is true when
the field is absent, null or the empty string). -/
def jsFalsy : Option String → Bool
  | none => true
  | some s => s == ""

/-- JavaScript `x || dflt` for an optional string field. -/
def jsOrDefault (v : Option String) (dflt : String) : String :=
  match v with
  | none => dflt
  | some s => if s == "" then dflt else s

/-- The `extracted_data` JSON object of one extraction record; every field
is a loosely-typed string that may be absent. -/
structure ExtractedData where
  amount : Option String
  date : Option String
  vendor : Option String
  description : Option String
  transaction_type : Option String
deriving DecidableEq, Repr

/-- One extraction row as read by the CSV export route. -/
structure Extraction where
  id : String
  filename : Option String
  extracted_data : ExtractedData
deriving DecidableEq, Repr

/-- Calendar components of the batch's `processed_at` date, as obtained in
the source from `new Date(batchProcessedAt)` via `getFullYear`,
`getMonth() + 1` and `getDate` (the timestamp-string parsing itself is not
modelled; the route only formats these three components). -/
structure JsDate where
  year : Nat
  month : Nat
  day : Nat
deriving DecidableEq, Repr

/-- `String(n).padStart(2, '0')` for a natural number. -/
def pad2 (n : Nat) : String :=
  if n < 10 then ⟨'0' :: natDigits n⟩ else ⟨natDigits n⟩

/-- Fallback date in MM/DD/YYYY order (3-column format). -/
def batchDate3 (bd : JsDate) : String :=
  pad2 bd.month ++ "/" ++ pad2 bd.day ++ "/" ++ ⟨natDigits bd.year⟩

/-- Fallback date in DD/MM/YYYY order (4-column format). -/
def batchDate4 (bd : JsDate) : String :=
  pad2 bd.day ++ "/" ++ pad2 bd.month ++ "/" ++ ⟨natDigits bd.year⟩

/-- Description composition shared by both CSV generators: vendor and
description joined when both known, else whichever is known, else the
filename, else the literal "Receipt". -/
def csvDescription (data : ExtractedData) (filename : Option String) : String :=
  if !jsFalsy data.vendor && !(data.vendor == some "Unknown") then
    if !jsFalsy data.description && !(data.description == some "Unknown") then
      data.vendor.getD "" ++ " - " ++ data.description.getD ""
    else
      data.vendor.getD ""
  else if !jsFalsy data.description && !(data.description == some "Unknown") then
    data.description.getD ""
  else
    jsOrDefault filename "Receipt"

/-- JavaScript `s.replace(/"/g, '""')`: double every double quote. -/
def jsReplaceQuotes (s : String) : String :=
  ⟨s.data.foldr (fun c acc => if c == '"' then '"' :: '"' :: acc else c :: acc) []⟩

/-- The amount string a generator parses: `String(data.amount || '0')`
cleaned by the `[$,\s]` regex. -/
def parsedCsvAmount (data : ExtractedData) : Option JsNum :=
  jsParseFloat (stripCurrency (jsOrDefault data.amount "0"))

/-- Export skip rule shared by both generators: amount missing/empty, "0"
or "Unknown". -/
def amountSkipped (data : ExtractedData) : Bool :=
  jsFalsy data.amount || data.amount == some "0" || data.amount == some "Unknown"

/-- Field computation of `generate3ColumnCSV` for one extraction: date,
description and the signed amount rendering, or `none` when the extraction
is skipped. -/
def gen3Fields (extraction : Extraction) (batchDate : JsDate) :
    Option (String × String × String) :=
  let data := extraction.extracted_data
  if amountSkipped data then none
  else
    let date := if jsFalsy data.date || data.date == some "Unknown" then
        batchDate3 batchDate
      else data.date.getD ""
    let description := csvDescription data extraction.filename
    match parsedCsvAmount data with
    | none => none
    | some amount =>
      let transactionType := jsOrDefault data.transaction_type "expense"
      let formattedAmount := if transactionType == "income" then amount
        else jsNeg amount
      some (date, description, jsNumToString formattedAmount)

/-- One row of the 3-column CSV: the template
`"${date}","${description.replace(/"/g, '""')}","${formattedAmount}"`. -/
def gen3Row (extraction : Extraction) (batchDate : JsDate) : Option String :=
  (gen3Fields extraction batchDate).map fun fields =>
    "\"" ++ fields.1 ++ "\",\"" ++ jsReplaceQuotes fields.2.1 ++ "\",\"" ++
      fields.2.2 ++ "\""

/-- JavaScript `rows.join('\n')`. -/
def joinRows : List String → String
  | [] => ""
  | [r] => r
  | r :: rs => r ++ "\n" ++ joinRows rs

/-- Shallow embedding of `generate3ColumnCSV` from the CSV export route. -/
def generate3ColumnCSV (extractions : List Extraction) (batchDate : JsDate) :
    String :=
  joinRows (extractions.filterMap fun e => gen3Row e batchDate)

/-- Field computation of `generate4ColumnCSV` for one extraction: date,
description, credit field and debit field, or `none` when skipped. -/
def gen4Fields (extraction : Extraction) (batchDate : JsDate) :
    Option (String × String × String × String) :=
  let data := extraction.extracted_data
  if amountSkipped data then none
  else
    let date := if jsFalsy data.date || data.date == some "Unknown" then
        batchDate4 batchDate
      else data.date.getD ""
    let description := csvDescription data extraction.filename
    match parsedCsvAmount data with
    | none => none
    | some amount =>
      let transactionType := jsOrDefault data.transaction_type "expense"
      let creditAmount := if transactionType == "income" then
          jsNumToString amount
        else ""
      let debitAmount := if transactionType == "expense" then
          jsNumToString amount
        else ""
      some (date, description, creditAmount, debitAmount)

/-- One row of the 4-column CSV: the template
`"${date}","${description.replace(/"/g, '""')}","${credit}","${debit}"`. -/
def gen4Row (extraction : Extraction) (batchDate : JsDate) : Option String :=
  (gen4Fields extraction batchDate).map fun fields =>
    "\"" ++ fields.1 ++ "\",\"" ++ jsReplaceQuotes fields.2.1 ++ "\",\"" ++
      fields.2.2.1 ++ "\",\"" ++ fields.2.2.2 ++ "\""

/-- Shallow embedding of `generate4ColumnCSV` from the CSV export route. -/
def generate4ColumnCSV (extractions : List Extraction) (batchDate : JsDate) :
    String :=
  joinRows (extractions.filterMap fun e => gen4Row e batchDate)

theorem gen3Fields_eval (e : Extraction) (bd : JsDate) (n : JsNum)
    (hskip : amountSkipped e.extracted_data = false)
    (hparse : parsedCsvAmount e.extracted_data = some n) :
    gen3Fields e bd = some
      (if jsFalsy e.extracted_data.date || e.extracted_data.date == some "Unknown"
        then batchDate3 bd else e.extracted_data.date.getD "",
       csvDescription e.extracted_data e.filename,
       jsNumToString (if jsOrDefault e.extracted_data.transaction_type "expense"
          == "income" then n else jsNeg n)) := by
  unfold gen3Fields
  dsimp only
  rw [hskip, hparse]
  simp

theorem gen4Fields_eval (e : Extraction) (bd : JsDate) (n : JsNum)
    (hskip : amountSkipped e.extracted_data = false)
    (hparse : parsedCsvAmount e.extracted_data = some n) :
    gen4Fields e bd = some
      (if jsFalsy e.extracted_data.date || e.extracted_data.date == some "Unknown"
        then batchDate4 bd else e.extracted_data.date.getD "",
       csvDescription e.extracted_data e.filename,
       (if jsOrDefault e.extracted_data.transaction_type "expense" == "income"
        then jsNumToString n else ""),
       (if jsOrDefault e.extracted_data.transaction_type "expense" == "expense"
        then jsNumToString n else "")) := by
  unfold gen4Fields
  dsimp only
  rw [hskip, hparse]
  simp

/-- C1: for every extraction that passes the export skip rule, with parsed
positive amount `a` and transaction type `t`: in 3-column format the
generated row's amount field renders `a` when `t` is income and `-a` when
`t` is expense; in 4-column format income yields credit `a` with an empty
debit field, and expense yields debit `a` with an empty credit field. -/
theorem claim_C1_sign_convention (e : Extraction) (bd : JsDate) (a : Rat)
    (hskip : amountSkipped e.extracted_data = false)
    (hparse : parsedCsvAmount e.extracted_data = some (JsNum.finite a))
    (hpos : 0 < a) :
    (e.extracted_data.transaction_type = some "income" →
      (∃ d ds, gen3Fields e bd = some (d, ds, jsNumToString (JsNum.finite a))) ∧
      (∃ d ds, gen4Fields e bd =
        some (d, ds, jsNumToString (JsNum.finite a), ""))) ∧
    (e.extracted_data.transaction_type = some "expense" →
      (∃ d ds, gen3Fields e bd =
        some (d, ds, jsNumToString (JsNum.finite (-a)))) ∧
      (∃ d ds, gen4Fields e bd =
        some (d, ds, "", jsNumToString (JsNum.finite a)))) := by
  have h3 := gen3Fields_eval e bd (JsNum.finite a) hskip hparse
  have h4 := gen4Fields_eval e bd (JsNum.finite a) hskip hparse
  constructor
  · intro ht
    rw [ht] at h3 h4
    simp only [show jsOrDefault (some "income") "expense" = "income" from rfl,
      beq_self_eq_true, if_true] at h3 h4
    exact ⟨⟨_, _, h3⟩, ⟨_, _, h4⟩⟩
  · intro ht
    rw [ht] at h3 h4
    simp only [show jsOrDefault (some "expense") "expense" = "expense" from rfl,
      show (("expense" : String) == "income") = false from rfl,
      beq_self_eq_true, if_true, Bool.false_eq_true, if_false, jsNeg,
      ratNeg_eq_neg] at h3 h4
    exact ⟨⟨_, _, h3⟩, ⟨_, _, h4⟩⟩

theorem claim_C1_witness :
    (∃ d ds, gen3Fields
      { id := "e1", filename := some "r.pdf",
        extracted_data :=
          { amount := some "50", date := some "12/15/2024",
            vendor := some "Acme", description := some "Office",
            transaction_type := some "expense" } }
      { year := 2024, month := 1, day := 2 } =
      some (d, ds, jsNumToString (JsNum.finite (-(50 : Rat))))) ∧
    (∃ d ds, gen4Fields
      { id := "e1", filename := some "r.pdf",
        extracted_data :=
          { amount := some "50", date := some "12/15/2024",
            vendor := some "Acme", description := some "Office",
            transaction_type := some "expense" } }
      { year := 2024, month := 1, day := 2 } =
      some (d, ds, "", jsNumToString (JsNum.finite (50 : Rat)))) :=
  (claim_C1_sign_convention
    { id := "e1", filename := some "r.pdf",
      extracted_data :=
        { amount := some "50", date := some "12/15/2024",
          vendor := some "Acme", description := some "Office",
          transaction_type := some "expense" } }
    { year := 2024, month := 1, day := 2 } 50
    (by decide) (by decide) (by norm_num)).2 rfl

/-- C2: for every batch and both CSV formats, an extraction whose amount
field is missing/empty, the string "0", or the string "Unknown"
contributes no row to the generated CSV document; it is silently excluded
(the surrounding extractions are exported unchanged). -/
theorem claim_C2_skip_rule (es1 es2 : List Extraction) (e : Extraction)
    (bd : JsDate)
    (h : jsFalsy e.extracted_data.amount = true ∨
         e.extracted_data.amount = some "0" ∨
         e.extracted_data.amount = some "Unknown") :
    gen3Row e bd = none ∧ gen4Row e bd = none ∧
    generate3ColumnCSV (es1 ++ e :: es2) bd =
      generate3ColumnCSV (es1 ++ es2) bd ∧
    generate4ColumnCSV (es1 ++ e :: es2) bd =
      generate4ColumnCSV (es1 ++ es2) bd := by
  have hskip : amountSkipped e.extracted_data = true := by
    unfold amountSkipped
    rcases h with h | h | h <;> simp [h]
  have h3 : gen3Fields e bd = none := by
    unfold gen3Fields
    dsimp only
    rw [hskip]
    simp
  have h4 : gen4Fields e bd = none := by
    unfold gen4Fields
    dsimp only
    rw [hskip]
    simp
  have r3 : gen3Row e bd = none := by simp [gen3Row, h3]
  have r4 : gen4Row e bd = none := by simp [gen4Row, h4]
  refine ⟨r3, r4, ?_, ?_⟩
  · simp [generate3ColumnCSV, List.filterMap_append, List.filterMap_cons, r3]
  · simp [generate4ColumnCSV, List.filterMap_append, List.filterMap_cons, r4]

theorem claim_C2_witness :
    generate3ColumnCSV
      [{ id := "e0", filename := none,
         extracted_data :=
           { amount := some "Unknown", date := some "01/02/2024",
             vendor := some "ClientCo", description := some "Unknown",
             transaction_type := some "income" } },
       { id := "e1", filename := some "r.pdf",
         extracted_data :=
           { amount := some "50", date := some "12/15/2024",
             vendor := some "Acme", description := some "Office",
             transaction_type := some "expense" } }]
      { year := 2024, month := 1, day := 2 } =
    generate3ColumnCSV
      [{ id := "e1", filename := some "r.pdf",
         extracted_data :=
           { amount := some "50", date := some "12/15/2024",
             vendor := some "Acme", description := some "Office",
             transaction_type := some "expense" } }]
      { year := 2024, month := 1, day := 2 } :=
  (claim_C2_skip_rule []
    [{ id := "e1", filename := some "r.pdf",
       extracted_data :=
         { amount := some "50", date := some "12/15/2024",
           vendor := some "Acme", description := some "Office",
           transaction_type := some "expense" } }]
    { id := "e0", filename := none,
      extracted_data :=
        { amount := some "Unknown", date := some "01/02/2024",
          vendor := some "ClientCo", description := some "Unknown",
          transaction_type := some "income" } }
    { year := 2024, month := 1, day := 2 }
    (Or.inr (Or.inr rfl))).2.2.1

/-- Spec-level CSV field wrapper: the field value enclosed in double
quotes. -/
def csvQuoteField (s : String) : String := "\"" ++ s ++ "\""

/-- Does the string contain the character `c`? -/
def hasChar (s : String) (c : Char) : Bool := s.data.any fun d => d == c

theorem decDigitChar_ne_quote (n : Nat) : decDigitChar n ≠ '"' := by
  unfold decDigitChar
  split <;> decide

theorem natDigitsAux_ne_quote (fuel n : Nat) (c : Char)
    (h : c ∈ natDigitsAux fuel n) : c ≠ '"' := by
  induction fuel generalizing n with
  | zero => simp [natDigitsAux] at h
  | succ fuel ih =>
    unfold natDigitsAux at h
    split at h
    · rw [List.mem_singleton] at h
      rw [h]
      exact decDigitChar_ne_quote n
    · rcases List.mem_append.mp h with h' | h'
      · exact ih _ h'
      · rw [List.mem_singleton] at h'
        rw [h']
        exact decDigitChar_ne_quote (n % 10)

theorem natDigits_ne_quote (n : Nat) (c : Char) (h : c ∈ natDigits n) :
    c ≠ '"' := natDigitsAux_ne_quote (n + 1) n c h

theorem padZeros_ne_quote (k : Nat) (ds : List Char)
    (hds : ∀ c ∈ ds, c ≠ '"') (c : Char) (h : c ∈ padZeros k ds) : c ≠ '"' := by
  unfold padZeros at h
  rcases List.mem_append.mp h with h' | h'
  · rw [List.eq_of_mem_replicate h']
    decide
  · exact hds c h'

theorem trimTrailingZeros_subset (ds : List Char) (c : Char)
    (h : c ∈ trimTrailingZeros ds) : c ∈ ds := by
  unfold trimTrailingZeros at h
  rw [List.mem_reverse] at h
  have := (List.dropWhile_sublist (fun c => c == '0')).subset h
  rwa [List.mem_reverse] at this

theorem ratToString_ne_quote (q : Rat) (c : Char)
    (h : c ∈ (ratToString q).data) : c ≠ '"' := by
  unfold ratToString at h
  split at h
  · rw [show ("0" : String).data = ['0'] from rfl, List.mem_singleton] at h
    rw [h]
    decide
  · dsimp only at h
    have hbody : ∀ d ∈ (if (trimTrailingZeros (padZeros (pow10Exp q.den)
        (natDigits (q.num.natAbs * (10 ^ pow10Exp q.den / q.den) %
          10 ^ pow10Exp q.den)))).isEmpty = true then
          natDigits (q.num.natAbs * (10 ^ pow10Exp q.den / q.den) /
            10 ^ pow10Exp q.den)
        else natDigits (q.num.natAbs * (10 ^ pow10Exp q.den / q.den) /
            10 ^ pow10Exp q.den) ++ '.' ::
          trimTrailingZeros (padZeros (pow10Exp q.den)
            (natDigits (q.num.natAbs * (10 ^ pow10Exp q.den / q.den) %
              10 ^ pow10Exp q.den)))), d ≠ '"' := by
      intro d hd
      split at hd
      · exact natDigits_ne_quote _ d hd
      · rcases List.mem_append.mp hd with h' | h'
        · exact natDigits_ne_quote _ d h'
        · rcases List.mem_cons.mp h' with h'' | h''
          · rw [h'']
            decide
          · exact padZeros_ne_quote _ _ (fun x hx => natDigits_ne_quote _ x hx)
              d (trimTrailingZeros_subset _ d h'')
    split at h
    · rcases List.mem_cons.mp h with h' | h'
      · rw [h']
        decide
      · exact hbody c h'
    · exact hbody c h

theorem jsNumToString_no_quote (n : JsNum) :
    hasChar (jsNumToString n) '"' = false := by
  cases n with
  | finite q =>
    unfold hasChar
    rw [Bool.eq_false_iff]
    intro hc
    rcases List.any_eq_true.mp hc with ⟨c, hmem, hceq⟩
    exact absurd (beq_iff_eq.mp hceq ▸ rfl)
      (ratToString_ne_quote q c hmem)
  | infinity s =>
    cases s <;> decide

theorem gen3Row_decomp (e : Extraction) (bd : JsDate) :
    gen3Row e bd = (gen3Fields e bd).map fun t =>
      csvQuoteField t.1 ++ "," ++ csvQuoteField (jsReplaceQuotes t.2.1) ++
        "," ++ csvQuoteField t.2.2 := by
  unfold gen3Row
  cases gen3Fields e bd with
  | none => rfl
  | some t =>
    rw [Option.map_some', Option.map_some']
    congr 1
    apply String.ext
    simp only [csvQuoteField, String.data_append,
      show ("\",\"" : String).data = '"' :: ',' :: ['"'] from rfl,
      show ("\"" : String).data = ['"'] from rfl,
      show ("," : String).data = [','] from rfl, List.append_assoc]
    simp

theorem gen4Row_decomp (e : Extraction) (bd : JsDate) :
    gen4Row e bd = (gen4Fields e bd).map fun t =>
      csvQuoteField t.1 ++ "," ++ csvQuoteField (jsReplaceQuotes t.2.1) ++
        "," ++ csvQuoteField t.2.2.1 ++ "," ++ csvQuoteField t.2.2.2 := by
  unfold gen4Row
  cases gen4Fields e bd with
  | none => rfl
  | some t =>
    rw [Option.map_some', Option.map_some']
    congr 1
    apply String.ext
    simp only [csvQuoteField, String.data_append,
      show ("\",\"" : String).data = '"' :: ',' :: ['"'] from rfl,
      show ("\"" : String).data = ['"'] from rfl,
      show ("," : String).data = [','] from rfl, List.append_assoc]
    simp

theorem gen3Fields_amount_shape (e : Extraction) (bd : JsDate)
    (t : String × String × String) (h : gen3Fields e bd = some t) :
    ∃ n, t.2.2 = jsNumToString n := by
  unfold gen3Fields at h
  dsimp only at h
  split at h
  · simp at h
  · split at h
    · simp at h
    · injection h with h
      subst h
      exact ⟨_, rfl⟩

theorem gen4Fields_amount_shape (e : Extraction) (bd : JsDate)
    (t : String × String × String × String) (h : gen4Fields e bd = some t) :
    ∃ n, (t.2.2.1 = jsNumToString n ∨ t.2.2.1 = "") ∧
         (t.2.2.2 = jsNumToString n ∨ t.2.2.2 = "") := by
  unfold gen4Fields at h
  dsimp only at h
  split at h
  · simp at h
  · split at h
    · simp at h
    · rename_i n heq
      injection h with h
      subst h
      refine ⟨n, ?_, ?_⟩
      · dsimp only
        split
        · exact Or.inl rfl
        · exact Or.inr rfl
      · dsimp only
        split
        · exact Or.inl rfl
        · exact Or.inr rfl

/-- C9 (amended): in every generated CSV document, for both formats, every
field of every row is wrapped in double quotes, fields are comma-joined
and rows newline-joined; embedded double quotes are doubled in the
description field (the only free-text field that is escaped), the date
field is interpolated verbatim, and the amount, credit and debit fields
are numeric/empty renderings that never contain a double quote. -/
theorem claim_C9_field_quoting (es : List Extraction) (bd : JsDate) :
    (generate3ColumnCSV es bd = joinRows (es.filterMap fun e =>
      (gen3Fields e bd).map fun t =>
        csvQuoteField t.1 ++ "," ++ csvQuoteField (jsReplaceQuotes t.2.1) ++
          "," ++ csvQuoteField t.2.2)) ∧
    (generate4ColumnCSV es bd = joinRows (es.filterMap fun e =>
      (gen4Fields e bd).map fun t =>
        csvQuoteField t.1 ++ "," ++ csvQuoteField (jsReplaceQuotes t.2.1) ++
          "," ++ csvQuoteField t.2.2.1 ++ "," ++ csvQuoteField t.2.2.2)) ∧
    (∀ e t, gen3Fields e bd = some t → hasChar t.2.2 '"' = false) ∧
    (∀ e t, gen4Fields e bd = some t →
      hasChar t.2.2.1 '"' = false ∧ hasChar t.2.2.2 '"' = false) := by
  refine ⟨?_, ?_, ?_, ?_⟩
  · unfold generate3ColumnCSV
    simp only [gen3Row_decomp]
  · unfold generate4ColumnCSV
    simp only [gen4Row_decomp]
  · intro e t h
    rcases gen3Fields_amount_shape e bd t h with ⟨n, hn⟩
    rw [hn]
    exact jsNumToString_no_quote n
  · intro e t h
    rcases gen4Fields_amount_shape e bd t h with ⟨n, h1, h2⟩
    constructor
    · rcases h1 with h1 | h1
      · rw [h1]
        exact jsNumToString_no_quote n
      · rw [h1]
        decide
    · rcases h2 with h2 | h2
      · rw [h2]
        exact jsNumToString_no_quote n
      · rw [h2]
        decide

set_option maxRecDepth 100000 in
/-- C9 counterexample: a date value containing an embedded double quote is
interpolated into the 3-column row verbatim — the quote is not doubled —
so the generated document differs from the fully-escaped document the
claim describes. -/
theorem claim_C9_counterexample :
    generate3ColumnCSV
      [{ id := "e9", filename := none,
         extracted_data :=
           { amount := some "50", date := some "ab\"cd",
             vendor := some "v", description := none,
             transaction_type := some "expense" } }]
      { year := 2024, month := 1, day := 2 } =
      "\"ab\"cd\",\"v\",\"-50\"" ∧
    generate3ColumnCSV
      [{ id := "e9", filename := none,
         extracted_data :=
           { amount := some "50", date := some "ab\"cd",
             vendor := some "v", description := none,
             transaction_type := some "expense" } }]
      { year := 2024, month := 1, day := 2 } ≠
      "\"ab\"\"cd\",\"v\",\"-50\"" := by
  constructor
  · decide
  · decide

set_option maxRecDepth 100000 in
theorem claim_C9_witness :
    hasChar "-50" '"' = false :=
  (claim_C9_field_quoting [] { year := 2024, month := 1, day := 2 }).2.2.1
    { id := "e1", filename := some "r.pdf",
      extracted_data :=
        { amount := some "50", date := some "12/15/2024",
          vendor := some "Acme", description := some "Office",
          transaction_type := some "expense" } }
    ("12/15/2024", "Acme - Office", "-50") (by decide)

/-- Result of `validateDate` (`{ isValid, error? }` in the source). -/
inductive DateResult where
  | valid
  | invalid (error : String)
deriving DecidableEq, Repr

/-- The date regex `^(\d{2})\/(\d{2})\/(\d{4})$` (identical for both CSV
formats): two 2-digit groups and one 4-digit group separated by slashes;
returns the three group values. -/
def parseDateGroups (cs : List Char) : Option (Nat × Nat × Nat) :=
  match cs with
  | [a, b, s1, c, d, s2, e, f, g, h] =>
    if a.isDigit && b.isDigit && s1 == '/' && c.isDigit && d.isDigit &&
        s2 == '/' && e.isDigit && f.isDigit && g.isDigit && h.isDigit then
      some (10 * digitVal a + digitVal b, 10 * digitVal c + digitVal d,
        1000 * digitVal e + 100 * digitVal f + 10 * digitVal g + digitVal h)
    else none
  | _ => none

def isLeapYear (y : Nat) : Bool :=
  (y % 4 == 0 && y % 100 != 0) || y % 400 == 0

def daysInMonth (y m : Nat) : Nat :=
  if m = 2 then (if isLeapYear y then 29 else 28)
  else if m = 4 ∨ m = 6 ∨ m = 9 ∨ m = 11 then 30
  else 31

/-- `new Date(y, m0, d)` for a month index `m0` in `[0, 11]` and a day in
`[1, 31]` (the domain guaranteed by the guards that precede it in
`validateDate`): JavaScript normalizes a day overflowing the month into
the following month.  Returns `(getFullYear, getMonth, getDate)`. -/
def normDate (y m0 d : Nat) : Nat × Nat × Nat :=
  let dim := daysInMonth y (m0 + 1)
  if d ≤ dim then (y, m0, d)
  else if m0 = 11 then (y + 1, 0, d - dim)
  else (y, m0 + 1, d - dim)

/-- Spec-level month selector: the month is the second group in 4-column
(DD/MM/YYYY) and the first group otherwise (MM/DD/YYYY). -/
def dateMonthOf (fmt : String) (g1 g2 : Nat) : Nat :=
  if fmt == "4-column" then g2 else g1

/-- Spec-level day selector, complementary to `dateMonthOf`. -/
def dateDayOf (fmt : String) (g1 g2 : Nat) : Nat :=
  if fmt == "4-column" then g1 else g2

/-- Shallow embedding of `validateDate` from the extraction-update route
(the source's initial `!dateString || dateString.trim() === ''` guard is
the emptiness test on the trimmed character list). -/
def validateDate (dateString csvFormat : String) : DateResult :=
  if (trimL dateString.data).isEmpty then DateResult.invalid "Date is required"
  else
    match parseDateGroups dateString.data with
    | none => DateResult.invalid (if csvFormat == "4-column"
        then "Date must be in DD/MM/YYYY format"
        else "Date must be in MM/DD/YYYY format")
    | some (g1, g2, y) =>
      let month := dateMonthOf csvFormat g1 g2
      let day := dateDayOf csvFormat g1 g2
      if month < 1 ∨ month > 12 then DateResult.invalid "Invalid month"
      else if day < 1 ∨ day > 31 then DateResult.invalid "Invalid day"
      else if y < 1900 ∨ y > 2100 then DateResult.invalid "Invalid year"
      else if normDate y (month - 1) day = (y, month - 1, day) then
        DateResult.valid
      else DateResult.invalid "Invalid date"

theorem mem_dropWhile_of_not (p : Char → Bool) (l : List Char) (c : Char)
    (hc : c ∈ l) (hp : p c = false) : c ∈ l.dropWhile p := by
  induction l with
  | nil => simp at hc
  | cons x xs ih =>
    rw [List.dropWhile_cons]
    by_cases hx : p x = true
    · rw [if_pos hx]
      rcases List.mem_cons.mp hc with rfl | hmem
      · rw [hp] at hx
        exact absurd hx (by simp)
      · exact ih hmem
    · rw [if_neg hx]
      exact hc

theorem mem_trimL (cs : List Char) (c : Char) (hc : c ∈ cs)
    (hp : isJsSpace c = false) : c ∈ trimL cs := by
  unfold trimL
  rw [List.mem_reverse]
  apply mem_dropWhile_of_not _ _ _ _ hp
  rw [List.mem_reverse]
  exact mem_dropWhile_of_not _ _ _ hc hp

theorem normDate_roundtrip (y m d : Nat) (hm1 : 1 ≤ m) (hm2 : m ≤ 12)
    (hd1 : 1 ≤ d) :
    normDate y (m - 1) d = (y, m - 1, d) ↔ d ≤ daysInMonth y m := by
  unfold normDate
  have hm : m - 1 + 1 = m := by omega
  rw [hm]
  constructor
  · intro h
    by_contra hle
    rw [if_neg hle] at h
    split at h
    · simp only [Prod.mk.injEq] at h
      omega
    · simp only [Prod.mk.injEq] at h
      omega
  · intro h
    rw [if_pos h]

/-- C3: for every date string of two 2-digit groups and one 4-digit group
separated by slashes and every csv_format, the date validator accepts iff
the denoted calendar date is real — month from the second group for
4-column (DD/MM/YYYY) and from the first otherwise (MM/DD/YYYY), month in
[1,12], day in [1,31] and no larger than the month's length, year in
[1900,2100]; in particular for 3-column it rejects 02/30/2024, accepts
02/29/2024 (leap year) and rejects 02/29/2023. -/
theorem claim_C3_date_validation (s fmt : String) (g1 g2 y : Nat)
    (h : parseDateGroups s.data = some (g1, g2, y)) :
    (validateDate s fmt = DateResult.valid ↔
      (1 ≤ dateMonthOf fmt g1 g2 ∧ dateMonthOf fmt g1 g2 ≤ 12 ∧
       1 ≤ dateDayOf fmt g1 g2 ∧ dateDayOf fmt g1 g2 ≤ 31 ∧
       1900 ≤ y ∧ y ≤ 2100 ∧
       dateDayOf fmt g1 g2 ≤ daysInMonth y (dateMonthOf fmt g1 g2))) ∧
    validateDate "02/30/2024" "3-column" ≠ DateResult.valid ∧
    validateDate "02/29/2024" "3-column" = DateResult.valid ∧
    validateDate "02/29/2023" "3-column" ≠ DateResult.valid := by
  refine ⟨?_, by decide, by decide, by decide⟩
  have h0 := h
  unfold parseDateGroups at h
  split at h
  case h_2 => exact absurd h (by simp)
  case h_1 a b s1 c0 d0 s2 e0 f0 g0 h10 heq =>
    split at h
    case isFalse => exact absurd h (by simp)
    case isTrue hdig =>
      have hslash : '/' ∈ trimL s.data := by
        apply mem_trimL
        · rw [heq]
          simp only [Bool.and_eq_true, beq_iff_eq] at hdig
          rw [hdig.1.1.1.1.1.1.1.2]
          simp
        · decide
      have htrim : ¬((trimL s.data).isEmpty = true) := by
        intro hempty
        rw [List.isEmpty_eq_true] at hempty
        rw [hempty] at hslash
        simp at hslash
      unfold validateDate
      rw [if_neg htrim, h0]
      dsimp only
      constructor
      · intro hv
        split at hv
        · exact absurd hv (by simp)
        · split at hv
          · exact absurd hv (by simp)
          · split at hv
            · exact absurd hv (by simp)
            · split at hv
              case isTrue hm hd hy hrt =>
                refine ⟨by omega, by omega, by omega, by omega, by omega,
                  by omega, ?_⟩
                exact (normDate_roundtrip y _ _ (by omega) (by omega)
                  (by omega)).mp hrt
              case isFalse => exact absurd hv (by simp)
      · rintro ⟨hm1, hm2, hd1, hd2, hy1, hy2, hdim⟩
        rw [if_neg (by omega), if_neg (by omega), if_neg (by omega),
          if_pos ((normDate_roundtrip y _ _ hm1 hm2 hd1).mpr hdim)]

theorem claim_C3_witness :
    validateDate "02/29/2024" "3-column" = DateResult.valid :=
  ((claim_C3_date_validation "02/29/2024" "3-column" 2 29 2024
    (by decide)).1).mpr (by decide)

/-- Result of `validateAmount` (`{ isValid, error?, cleanedAmount? }` in
the source). -/
inductive AmountResult where
  | ok (cleanedAmount : String)
  | invalid (error : String)
deriving DecidableEq, Repr

/-- JavaScript `num < 0` (a negative rational has a negative numerator;
`-Infinity` is negative). -/
def jsNumIsNeg : JsNum → Bool
  | JsNum.finite q => decide (q.num < 0)
  | JsNum.infinity s => s

/-- JavaScript `num > 999999999999`, on the reduced representation
(`cap < q` iff `cap * q.den < q.num`; `Infinity` exceeds the cap). -/
def jsNumGtCap : JsNum → Bool
  | JsNum.finite q => decide ((999999999999 : Int) * (q.den : Int) < q.num)
  | JsNum.infinity s => !s

/-- Shallow embedding of `validateAmount` from the extraction-update
route (the source's initial `!amountString || amountString.trim() === ''`
guard is the emptiness test on the trimmed character list). -/
def validateAmount (amountString : String) : AmountResult :=
  if (trimL amountString.data).isEmpty then
    AmountResult.invalid "Amount is required"
  else
    match jsParseFloat (stripCurrency amountString) with
    | none => AmountResult.invalid "Amount must be a valid number"
    | some num =>
      if jsNumIsNeg num then AmountResult.invalid "Amount cannot be negative"
      else if jsNumGtCap num then
        AmountResult.invalid "Amount too large (max 999 billion)"
      else AmountResult.ok (jsNumToString num)

theorem jsNumIsNeg_iff (q : Rat) :
    jsNumIsNeg (JsNum.finite q) = true ↔ q < 0 := by
  unfold jsNumIsNeg
  rw [decide_eq_true_eq]
  exact Rat.num_neg

theorem jsNumGtCap_iff (q : Rat) :
    jsNumGtCap (JsNum.finite q) = true ↔ (999999999999 : Rat) < q := by
  unfold jsNumGtCap
  rw [decide_eq_true_eq, Rat.lt_def]
  norm_num

theorem digitVal_decDigitChar (m : Nat) (h : m < 10) :
    digitVal (decDigitChar m) = m := by
  interval_cases m <;> decide

theorem decDigitChar_isDigit (m : Nat) (h : m < 10) :
    (decDigitChar m).isDigit = true := by
  interval_cases m <;> decide

theorem digitsToNat_cons (c : Char) (ds : List Char) :
    digitsToNat (c :: ds) =
      ds.foldl (fun acc x => 10 * acc + digitVal x) (digitVal c) := by
  simp [digitsToNat]

theorem digitsToNat_go (ds : List Char) (acc : Nat) :
    ds.foldl (fun a x => 10 * a + digitVal x) acc =
      acc * 10 ^ ds.length + digitsToNat ds := by
  induction ds generalizing acc with
  | nil => simp [digitsToNat]
  | cons c cs ih =>
    rw [List.foldl_cons, ih, digitsToNat_cons, ih (digitVal c)]
    simp [List.length_cons, pow_succ]
    ring

theorem digitsToNat_append (xs ys : List Char) :
    digitsToNat (xs ++ ys) =
      digitsToNat xs * 10 ^ ys.length + digitsToNat ys := by
  unfold digitsToNat
  rw [List.foldl_append, digitsToNat_go]
  rfl

theorem digitsToNat_replicate_zero (z : Nat) :
    digitsToNat (List.replicate z '0') = 0 := by
  induction z with
  | zero => rfl
  | succ z ih =>
    rw [List.replicate_succ, digitsToNat_cons, digitsToNat_go, ih]
    simp [digitVal]

theorem natDigitsAux_spec (fuel : Nat) : ∀ n, n < fuel →
    digitsToNat (natDigitsAux fuel n) = n ∧
    (∀ c ∈ natDigitsAux fuel n, c.isDigit = true) ∧
    natDigitsAux fuel n ≠ [] := by
  induction fuel with
  | zero => intro n hn; omega
  | succ fuel ih =>
    intro n hn
    unfold natDigitsAux
    by_cases h10 : n < 10
    · rw [if_pos h10]
      refine ⟨?_, ?_, by simp⟩
      · simp [digitsToNat, digitVal_decDigitChar n h10]
      · intro c hc
        rw [List.mem_singleton] at hc
        rw [hc]
        exact decDigitChar_isDigit n h10
    · rw [if_neg h10]
      have hlt : n / 10 < fuel := by omega
      obtain ⟨hval, hdig, hne⟩ := ih (n / 10) hlt
      refine ⟨?_, ?_, by simp⟩
      · rw [digitsToNat_append, hval]
        simp [digitsToNat, digitVal_decDigitChar (n % 10) (by omega)]
        omega
      · intro c hc
        rcases List.mem_append.mp hc with h' | h'
        · exact hdig c h'
        · rw [List.mem_singleton] at h'
          rw [h']
          exact decDigitChar_isDigit (n % 10) (by omega)

theorem natDigits_spec (n : Nat) :
    digitsToNat (natDigits n) = n ∧
    (∀ c ∈ natDigits n, c.isDigit = true) ∧ natDigits n ≠ [] :=
  natDigitsAux_spec (n + 1) n (by omega)

theorem natDigitsAux_length (fuel : Nat) : ∀ n j, n < fuel → 1 ≤ j →
    n < 10 ^ j → (natDigitsAux fuel n).length ≤ j := by
  induction fuel with
  | zero => intro n j hn; omega
  | succ fuel ih =>
    intro n j hn hj hpow
    unfold natDigitsAux
    by_cases h10 : n < 10
    · rw [if_pos h10]
      simpa using hj
    · rw [if_neg h10]
      rw [List.length_append]
      have hj2 : 2 ≤ j := by
        by_contra hlt
        have : j = 1 := by omega
        rw [this] at hpow
        simp at hpow
        omega
      have : n / 10 < 10 ^ (j - 1) := by
        have h1 : 10 ^ j = 10 ^ (j - 1) * 10 := by
          rw [← pow_succ]
          congr 1
          omega
        rw [h1] at hpow
        omega
      have := ih (n / 10) (j - 1) (by omega) (by omega) this
      simp
      omega

theorem natDigits_length (n j : Nat) (hj : 1 ≤ j) (h : n < 10 ^ j) :
    (natDigits n).length ≤ j :=
  natDigitsAux_length (n + 1) n j (by omega) hj h

theorem takeWhileSat_append (p : Char → Bool) (l1 l2 : List Char)
    (h : ∀ c ∈ l1, p c = true) :
    (l1 ++ l2).takeWhile p = l1 ++ l2.takeWhile p := by
  induction l1 with
  | nil => simp
  | cons x xs ih =>
    rw [List.cons_append, List.takeWhile_cons, if_pos (h x (by simp))]
    rw [ih fun c hc => h c (by simp [hc])]
    rfl

theorem dropWhileSat_append (p : Char → Bool) (l1 l2 : List Char)
    (h : ∀ c ∈ l1, p c = true) :
    (l1 ++ l2).dropWhile p = l2.dropWhile p := by
  induction l1 with
  | nil => simp
  | cons x xs ih =>
    rw [List.cons_append, List.dropWhile_cons, if_pos (h x (by simp))]
    exact ih fun c hc => h c (by simp [hc])

theorem takeWhileSat_all (p : Char → Bool) (l : List Char)
    (h : ∀ c ∈ l, p c = true) : l.takeWhile p = l := by
  have := takeWhileSat_append p l [] h
  simpa using this

theorem dropWhileSat_all (p : Char → Bool) (l : List Char)
    (h : ∀ c ∈ l, p c = true) : l.dropWhile p = [] := by
  have := dropWhileSat_append p l [] h
  simpa using this

theorem padZeros_digits (k : Nat) (ds : List Char)
    (h : ∀ c ∈ ds, c.isDigit = true) :
    ∀ c ∈ padZeros k ds, c.isDigit = true := by
  intro c hc
  unfold padZeros at hc
  rcases List.mem_append.mp hc with h' | h'
  · rw [List.eq_of_mem_replicate h']
    decide
  · exact h c h'

theorem digitsToNat_padZeros (k : Nat) (ds : List Char) :
    digitsToNat (padZeros k ds) = digitsToNat ds := by
  unfold padZeros
  rw [digitsToNat_append, digitsToNat_replicate_zero]
  simp

theorem padZeros_length (k : Nat) (ds : List Char) (h : ds.length ≤ k) :
    (padZeros k ds).length = k := by
  unfold padZeros
  rw [List.length_append, List.length_replicate]
  omega

theorem trimTrailingZeros_decomp (ds : List Char) :
    ∃ z, ds = trimTrailingZeros ds ++ List.replicate z '0' := by
  refine ⟨((ds.reverse.takeWhile fun c => c == '0').reverse).length, ?_⟩
  unfold trimTrailingZeros
  conv_lhs => rw [← List.reverse_reverse ds,
    ← List.takeWhile_append_dropWhile (p := fun c => c == '0')
      (l := ds.reverse)]
  rw [List.reverse_append]
  congr 1
  apply List.eq_replicate_of_mem
  intro c hc
  rw [List.mem_reverse] at hc
  have := List.mem_takeWhile_imp hc
  exact beq_iff_eq.mp this

theorem digit_not_space (c : Char) (h : c.isDigit = true) :
    isJsSpace c = false := by
  rw [Bool.eq_false_iff]
  intro hs
  unfold isJsSpace at hs
  simp only [Bool.or_eq_true, beq_iff_eq] at hs
  rcases hs with ((((((rfl | rfl) | rfl) | rfl) | rfl) | rfl) | rfl) <;>
    exact absurd h (by decide)

theorem digit_beq_false (c d : Char) (hc : c.isDigit = true)
    (hd : d.isDigit = false) : (c == d) = false := by
  rw [beq_eq_false_iff_ne]
  intro h
  rw [h] at hc
  rw [hc] at hd
  cases hd

theorem beq_digit_false (d c : Char) (hc : c.isDigit = true)
    (hd : d.isDigit = false) : (d == c) = false := by
  rw [beq_eq_false_iff_ne]
  intro h
  rw [← h] at hc
  rw [hc] at hd
  cases hd

theorem parseMantissa_digits_frac (ip fr : List Char)
    (hip : ∀ c ∈ ip, c.isDigit = true) (hfr : ∀ c ∈ fr, c.isDigit = true)
    (hne : ip ≠ []) :
    parseMantissa (ip ++ '.' :: fr) =
      some (digitsToNat ip, digitsToNat fr, fr.length, []) := by
  have hemp : ip.isEmpty = false := by
    rw [Bool.eq_false_iff]
    intro h
    exact hne (List.isEmpty_iff.mp h)
  unfold parseMantissa
  rw [takeWhileSat_append _ _ _ hip, dropWhileSat_append _ _ _ hip,
    List.takeWhile_cons, List.dropWhile_cons]
  simp only [show ('.'.isDigit) = false from rfl, Bool.false_eq_true, if_false,
    List.append_nil]
  rw [takeWhileSat_all _ _ hfr, dropWhileSat_all _ _ hfr, hemp]
  simp

theorem parseMantissa_digits_int (ip : List Char)
    (hip : ∀ c ∈ ip, c.isDigit = true) (hne : ip ≠ []) :
    parseMantissa ip = some (digitsToNat ip, 0, 0, []) := by
  have hemp : ip.isEmpty = false := by
    rw [Bool.eq_false_iff]
    intro h
    exact hne (List.isEmpty_iff.mp h)
  unfold parseMantissa
  rw [takeWhileSat_all _ _ hip, dropWhileSat_all _ _ hip]
  dsimp only
  rw [hemp]
  simp

theorem jsParseFloat_digitHead (c : Char) (rest : List Char)
    (hc : c.isDigit = true) :
    jsParseFloat ⟨c :: rest⟩ =
      (match parseMantissa (c :: rest) with
      | none => none
      | some (ip, fp, flen, r) =>
        let e := (parseExp r).getD 0
        let m : Int := (ip * 10 ^ flen + fp : Nat)
        some (JsNum.finite (if 0 ≤ e then mkRat (m * 10 ^ e.toNat) (10 ^ flen)
          else mkRat m (10 ^ (flen + (-e).toNat))))) := by
  unfold jsParseFloat
  rw [show (String.mk (c :: rest)).data = c :: rest from rfl]
  rw [List.dropWhile_cons, digit_not_space c hc]
  simp only [Bool.false_eq_true, if_false]
  rw [digit_beq_false c '+' hc (by decide), digit_beq_false c '-' hc (by decide)]
  simp only [Bool.false_eq_true, if_false]
  unfold jsParseFloatAux
  have hIc : ('I' == c) = false := beq_digit_false 'I' c hc (by decide)
  rw [show isPrefixOfL ['I', 'n', 'f', 'i', 'n', 'i', 't', 'y'] (c :: rest) =
    ('I' == c && isPrefixOfL ['n', 'f', 'i', 'n', 'i', 't', 'y'] rest)
    from rfl, hIc]
  simp only [Bool.false_and, Bool.false_eq_true, if_false]

theorem jsParseFloat_digitsOnly (ds : List Char)
    (hdig : ∀ c ∈ ds, c.isDigit = true) (hne : ds ≠ []) :
    jsParseFloat ⟨ds⟩ = some (JsNum.finite (mkRat (digitsToNat ds) 1)) := by
  obtain ⟨c, rest, rfl⟩ : ∃ c rest, ds = c :: rest := by
    cases ds with
    | nil => exact absurd rfl hne
    | cons c rest => exact ⟨c, rest, rfl⟩
  have hc : c.isDigit = true := hdig c (by simp)
  rw [jsParseFloat_digitHead c rest hc,
    parseMantissa_digits_int _ hdig (by simp)]
  dsimp only
  rw [show parseExp [] = none from rfl]
  dsimp only [Option.getD]
  rw [if_pos (le_refl (0:Int))]
  norm_num

theorem jsParseFloat_digits_dot (ipDs frDs : List Char)
    (hip : ∀ c ∈ ipDs, c.isDigit = true) (hfr : ∀ c ∈ frDs, c.isDigit = true)
    (hne : ipDs ≠ []) :
    jsParseFloat ⟨ipDs ++ '.' :: frDs⟩ =
      some (JsNum.finite (mkRat ((digitsToNat ipDs * 10 ^ frDs.length +
        digitsToNat frDs : Nat) : Int) (10 ^ frDs.length))) := by
  obtain ⟨c, rest, rfl⟩ : ∃ c rest, ipDs = c :: rest := by
    cases ipDs with
    | nil => exact absurd rfl hne
    | cons c rest => exact ⟨c, rest, rfl⟩
  have hc : c.isDigit = true := hip c (by simp)
  rw [List.cons_append,
    jsParseFloat_digitHead c (rest ++ '.' :: frDs) hc,
    ← List.cons_append,
    parseMantissa_digits_frac _ _ hip hfr (by simp)]
  dsimp only
  rw [show parseExp [] = none from rfl]
  dsimp only [Option.getD]
  rw [if_pos (le_refl (0:Int))]
  norm_num

theorem ratToString_eval (q : Rat) (k ipart fpart : Nat)
    (hz : q.num ≠ 0) (hneg : ¬ q.num < 0)
    (hk : pow10Exp q.den = k)
    (hip : q.num.natAbs * (10 ^ k / q.den) / 10 ^ k = ipart)
    (hfp : q.num.natAbs * (10 ^ k / q.den) % 10 ^ k = fpart) :
    ratToString q =
      ⟨if (trimTrailingZeros (padZeros k (natDigits fpart))).isEmpty = true
       then natDigits ipart
       else natDigits ipart ++ '.' ::
         trimTrailingZeros (padZeros k (natDigits fpart))⟩ := by
  subst hk
  subst hip
  subst hfp
  unfold ratToString
  rw [if_neg hz]
  dsimp only
  rw [if_neg hneg]

theorem jsParseFloat_ratToString (q : Rat) (hnum : 0 ≤ q.num)
    (hdvd : 10 ^ pow10Exp q.den % q.den = 0) :
    jsParseFloat (ratToString q) = some (JsNum.finite q) := by
  by_cases hz : q.num = 0
  · have hq : q = 0 := by rwa [Rat.num_eq_zero] at hz
    rw [hq, show ratToString 0 = "0" from by decide,
      show jsParseFloat "0" = some (JsNum.finite (mkRat 0 1)) from by decide,
      Rat.zero_mkRat]
  · have hneg : ¬(q.num < 0) := by omega
    have hden : q.den ≠ 0 := q.den_nz
    obtain ⟨k, hk⟩ : ∃ k, pow10Exp q.den = k := ⟨_, rfl⟩
    rw [hk] at hdvd
    obtain ⟨n, hn⟩ : ∃ n, q.num.natAbs = n := ⟨_, rfl⟩
    obtain ⟨scaled, hsc⟩ : ∃ s, n * (10 ^ k / q.den) = s := ⟨_, rfl⟩
    obtain ⟨ipart, hip⟩ : ∃ i, scaled / 10 ^ k = i := ⟨_, rfl⟩
    obtain ⟨fpart, hfp⟩ : ∃ f, scaled % 10 ^ k = f := ⟨_, rfl⟩
    have hdvd' : q.den ∣ 10 ^ k := Nat.dvd_of_mod_eq_zero hdvd
    have hscaled_den : scaled * q.den = n * 10 ^ k := by
      rw [← hsc, Nat.mul_assoc, Nat.div_mul_cancel hdvd']
    have hkpos : 0 < (10:Nat) ^ k := by positivity
    have hfp_lt : fpart < 10 ^ k := by
      rw [← hfp]
      exact Nat.mod_lt _ hkpos
    have hdm : ipart * 10 ^ k + fpart = scaled := by
      have h0 := Nat.div_add_mod scaled (10 ^ k)
      rw [hip, hfp, Nat.mul_comm] at h0
      exact h0
    have hnum' : (n : Int) = q.num := by
      rw [← hn]
      exact Int.natAbs_of_nonneg hnum
    obtain ⟨hip_val, hip_dig, hip_ne⟩ := natDigits_spec ipart
    obtain ⟨hfd_val, hfd_dig, hfd_ne⟩ := natDigits_spec fpart
    have hds_val : digitsToNat (padZeros k (natDigits fpart)) = fpart := by
      rw [digitsToNat_padZeros, hfd_val]
    have hds_dig : ∀ c ∈ padZeros k (natDigits fpart), c.isDigit = true :=
      padZeros_digits _ _ hfd_dig
    obtain ⟨z, hzdec⟩ := trimTrailingZeros_decomp (padZeros k (natDigits fpart))
    have hfrac_dig : ∀ c ∈ trimTrailingZeros (padZeros k (natDigits fpart)),
        c.isDigit = true := fun c hcmem =>
      hds_dig c (trimTrailingZeros_subset _ c hcmem)
    have hfpart_eq : fpart =
        digitsToNat (trimTrailingZeros (padZeros k (natDigits fpart))) *
          10 ^ z := by
      have h1 : digitsToNat (padZeros k (natDigits fpart)) =
          digitsToNat (trimTrailingZeros (padZeros k (natDigits fpart))) *
            10 ^ z + 0 := by
        conv_lhs => rw [hzdec]
        rw [digitsToNat_append, digitsToNat_replicate_zero,
          List.length_replicate]
      rw [hds_val] at h1
      omega
    rw [ratToString_eval q k ipart fpart hz hneg hk
      (by rw [hn, hsc, hip]) (by rw [hn, hsc, hfp])]
    by_cases hfe : (trimTrailingZeros (padZeros k (natDigits fpart))).isEmpty =
        true
    · rw [if_pos hfe]
      have hfz : fpart = 0 := by
        have hfr_nil : trimTrailingZeros (padZeros k (natDigits fpart)) = [] :=
          List.isEmpty_iff.mp hfe
        rw [hfr_nil] at hfpart_eq
        simpa [digitsToNat] using hfpart_eq
      rw [jsParseFloat_digitsOnly _ hip_dig hip_ne, hip_val]
      have hNat : ipart * q.den = n := by
        apply Nat.eq_of_mul_eq_mul_right hkpos
        calc ipart * q.den * 10 ^ k = (ipart * 10 ^ k + fpart) * q.den := by
              rw [hfz]; ring
          _ = scaled * q.den := by rw [hdm]
          _ = n * 10 ^ k := hscaled_den
      simp only [Option.some.injEq, JsNum.finite.injEq]
      rw [← Rat.mkRat_self q, Rat.mkRat_eq_iff one_ne_zero q.den_nz]
      have hcast : ((ipart : Int)) * (q.den : Int) = (n : Int) := by
        exact_mod_cast hNat
      rw [hcast, hnum']
      simp
    · rw [if_neg hfe]
      have hfr_ne : trimTrailingZeros (padZeros k (natDigits fpart)) ≠ [] := by
        intro hcontra
        rw [← List.isEmpty_iff] at hcontra
        exact hfe hcontra
      have hk1 : 1 ≤ k := by
        by_contra hk0
        have hk00 : k = 0 := by omega
        have hfz : fpart = 0 := by
          rw [hk00] at hfp_lt
          simpa using hfp_lt
        apply hfr_ne
        rw [hk00, hfz]
        decide
      have hlen : (padZeros k (natDigits fpart)).length = k :=
        padZeros_length k _ (natDigits_length fpart k hk1 hfp_lt)
      have hzflen :
          (trimTrailingZeros (padZeros k (natDigits fpart))).length + z = k := by
        have h2 := congrArg List.length hzdec
        rw [List.length_append, List.length_replicate, hlen] at h2
        omega
      rw [jsParseFloat_digits_dot _ _ hip_dig hfrac_dig hip_ne, hip_val]
      have hzpos : 0 < (10:Nat) ^ z := by positivity
      have hpow : (10:Nat) ^
          (trimTrailingZeros (padZeros k (natDigits fpart))).length *
          10 ^ z = 10 ^ k := by
        rw [← pow_add, hzflen]
      have hNat : (ipart *
          10 ^ (trimTrailingZeros (padZeros k (natDigits fpart))).length +
          digitsToNat (trimTrailingZeros (padZeros k (natDigits fpart)))) *
          q.den =
          n * 10 ^ (trimTrailingZeros (padZeros k (natDigits fpart))).length
          := by
        apply Nat.eq_of_mul_eq_mul_right hzpos
        calc (ipart *
              10 ^ (trimTrailingZeros (padZeros k (natDigits fpart))).length +
              digitsToNat (trimTrailingZeros (padZeros k (natDigits fpart)))) *
              q.den * 10 ^ z
            = (ipart *
                (10 ^ (trimTrailingZeros (padZeros k
                  (natDigits fpart))).length * 10 ^ z) +
                digitsToNat (trimTrailingZeros (padZeros k
                  (natDigits fpart))) * 10 ^ z) * q.den := by ring
          _ = (ipart * 10 ^ k + fpart) * q.den := by rw [hpow, ← hfpart_eq]
          _ = scaled * q.den := by rw [hdm]
          _ = n * 10 ^ k := hscaled_den
          _ = n * 10 ^ (trimTrailingZeros (padZeros k
              (natDigits fpart))).length * 10 ^ z := by rw [← hpow]; ring
      simp only [Option.some.injEq, JsNum.finite.injEq]
      rw [← Rat.mkRat_self q, Rat.mkRat_eq_iff (by positivity) q.den_nz]
      have hcast : ((ipart *
          10 ^ (trimTrailingZeros (padZeros k (natDigits fpart))).length +
          digitsToNat (trimTrailingZeros (padZeros k (natDigits fpart))) :
          Nat) : Int) * (q.den : Int) =
          (n : Int) *
          ((10 ^ (trimTrailingZeros (padZeros k
            (natDigits fpart))).length : Nat) : Int) := by
        exact_mod_cast hNat
      rw [hcast, hnum']

theorem mkRat_den_dvd (n : Int) (d : Nat) : (mkRat n d).den ∣ d := by
  have h := Rat.den_dvd n (d : Int)
  rw [Rat.divInt_ofNat] at h
  exact_mod_cast h

theorem pow10ExpAux_finds (fuel : Nat) : ∀ d start j, start ≤ j →
    j < start + fuel → 10 ^ j % d = 0 →
    10 ^ (pow10ExpAux fuel d start) % d = 0 := by
  induction fuel with
  | zero =>
    intro d start j h1 h2 hj
    omega
  | succ fuel ih =>
    intro d start j h1 h2 hj
    unfold pow10ExpAux
    by_cases hs : 10 ^ start % d = 0
    · rw [if_pos hs]
      exact hs
    · rw [if_neg hs]
      rcases Nat.eq_or_lt_of_le h1 with rfl | hlt
      · exact absurd hj hs
      · exact ih d (start + 1) j (by omega) (by omega) hj

theorem dvd_pow10_small (d m : Nat) (h : d ∣ 10 ^ m) :
    ∃ j, j ≤ d ∧ d ∣ 10 ^ j := by
  have h10 : (10:Nat) ^ m = 2 ^ m * 5 ^ m := by
    rw [show (10:Nat) = 2 * 5 from rfl, mul_pow]
  rw [h10] at h
  obtain ⟨d1, d2, hd1, hd2, rfl⟩ := exists_dvd_and_dvd_of_dvd_mul h
  obtain ⟨a, ha, rfl⟩ := (Nat.dvd_prime_pow Nat.prime_two).mp hd1
  obtain ⟨b, hb, rfl⟩ := (Nat.dvd_prime_pow (by norm_num : Nat.Prime 5)).mp hd2
  refine ⟨max a b, ?_, ?_⟩
  · have h2a : a < 2 ^ a := Nat.lt_two_pow a
    have h5b : b < 5 ^ b := Nat.lt_pow_self (by norm_num) b
    have hm1 : 2 ^ a ≤ 2 ^ a * 5 ^ b :=
      Nat.le_mul_of_pos_right _ (by positivity)
    have hm2 : 5 ^ b ≤ 2 ^ a * 5 ^ b :=
      Nat.le_mul_of_pos_left _ (by positivity)
    omega
  · have hmx : (10:Nat) ^ max a b = 2 ^ max a b * 5 ^ max a b := by
      rw [show (10:Nat) = 2 * 5 from rfl, mul_pow]
    rw [hmx]
    exact mul_dvd_mul (pow_dvd_pow 2 (le_max_left a b))
      (pow_dvd_pow 5 (le_max_right a b))

theorem pow10Exp_dvd (d m : Nat) (h : d ∣ 10 ^ m) :
    10 ^ pow10Exp d % d = 0 := by
  obtain ⟨j, hj, hdvd⟩ := dvd_pow10_small d m h
  unfold pow10Exp
  exact pow10ExpAux_finds (d + 1) d 0 j (by omega) (by omega)
    (Nat.mod_eq_zero_of_dvd hdvd)

theorem jsParseFloatAux_den_pow10 (sgn : Bool) (cs : List Char) (q : Rat)
    (h : jsParseFloatAux sgn cs = some (JsNum.finite q)) :
    ∃ j, q.den ∣ 10 ^ j := by
  unfold jsParseFloatAux at h
  split at h
  · simp at h
  · split at h
    · simp at h
    · rename_i ip fp flen rest heq
      dsimp only at h
      rw [Option.some.injEq, JsNum.finite.injEq] at h
      subst h
      split
      · exact ⟨flen, mkRat_den_dvd _ _⟩
      · exact ⟨flen + (-(parseExp rest).getD 0).toNat, mkRat_den_dvd _ _⟩

theorem jsParseFloat_den_pow10 (s : String) (q : Rat)
    (h : jsParseFloat s = some (JsNum.finite q)) : ∃ j, q.den ∣ 10 ^ j := by
  unfold jsParseFloat at h
  split at h
  · simp at h
  · split at h
    · exact jsParseFloatAux_den_pow10 _ _ _ h
    · split at h
      · exact jsParseFloatAux_den_pow10 _ _ _ h
      · exact jsParseFloatAux_den_pow10 _ _ _ h

theorem ratToString_chars (q : Rat) (c : Char)
    (h : c ∈ (ratToString q).data) :
    c.isDigit = true ∨ c = '-' ∨ c = '.' := by
  unfold ratToString at h
  split at h
  · rw [show ("0" : String).data = ['0'] from rfl, List.mem_singleton] at h
    rw [h]
    left
    decide
  · dsimp only at h
    have hbody : ∀ d ∈ (if (trimTrailingZeros (padZeros (pow10Exp q.den)
        (natDigits (q.num.natAbs * (10 ^ pow10Exp q.den / q.den) %
          10 ^ pow10Exp q.den)))).isEmpty = true then
          natDigits (q.num.natAbs * (10 ^ pow10Exp q.den / q.den) /
            10 ^ pow10Exp q.den)
        else natDigits (q.num.natAbs * (10 ^ pow10Exp q.den / q.den) /
            10 ^ pow10Exp q.den) ++ '.' ::
          trimTrailingZeros (padZeros (pow10Exp q.den)
            (natDigits (q.num.natAbs * (10 ^ pow10Exp q.den / q.den) %
              10 ^ pow10Exp q.den)))),
        d.isDigit = true ∨ d = '-' ∨ d = '.' := by
      intro d hd
      split at hd
      · exact Or.inl ((natDigits_spec _).2.1 d hd)
      · rcases List.mem_append.mp hd with h' | h'
        · exact Or.inl ((natDigits_spec _).2.1 d h')
        · rcases List.mem_cons.mp h' with h'' | h''
          · exact Or.inr (Or.inr h'')
          · exact Or.inl (padZeros_digits _ _ (natDigits_spec _).2.1 d
              (trimTrailingZeros_subset _ d h''))
    split at h
    · rcases List.mem_cons.mp h with h' | h'
      · exact Or.inr (Or.inl h')
      · exact hbody c h'
    · exact hbody c h

theorem digit_not_stripped (c : Char) (h : c.isDigit = true) :
    isStrippedChar c = false := by
  unfold isStrippedChar
  rw [digit_beq_false c '$' h (by decide), digit_beq_false c ',' h (by decide),
    digit_not_space c h]
  rfl

theorem jsNumToString_finite_not_stripped (q : Rat) (c : Char)
    (h : c ∈ (jsNumToString (JsNum.finite q)).data) :
    isStrippedChar c = false := by
  rcases ratToString_chars q c h with hd | rfl | rfl
  · exact digit_not_stripped c hd
  · decide
  · decide

/-- C4 counterexample: a euro sign is not stripped by the validator (the
cleaning regex removes only dollar signs, commas and whitespace), so
"€100" is rejected as not a number even though stripping every currency
symbol would leave the accepted amount "100". -/
theorem claim_C4_counterexample :
    validateAmount "€100" =
      AmountResult.invalid "Amount must be a valid number" ∧
    validateAmount "100" = AmountResult.ok "100" := by
  constructor
  · decide
  · decide

/-- C4 (amended): the amount validator strips dollar signs, commas and
whitespace (other currency symbols are not stripped); it rejects the
string when it is empty after trimming, when the stripped form does not
parse as a JavaScript number, when the parsed value is negative, or when
it exceeds 999,999,999,999; on success it returns the canonical rendering
of the parsed value — a string free of the stripped characters that parses
back to exactly the same numeric value — e.g. validating "$1,234.50"
returns "1234.5". -/
theorem claim_C4_amount_validation (s : String) :
    ((trimL s.data).isEmpty = true →
      validateAmount s = AmountResult.invalid "Amount is required") ∧
    ((trimL s.data).isEmpty = false →
      jsParseFloat (stripCurrency s) = none →
      validateAmount s =
        AmountResult.invalid "Amount must be a valid number") ∧
    (∀ b, (trimL s.data).isEmpty = false →
      jsParseFloat (stripCurrency s) = some (JsNum.infinity b) →
      validateAmount s = AmountResult.invalid
        (if b then "Amount cannot be negative"
         else "Amount too large (max 999 billion)")) ∧
    (∀ q, (trimL s.data).isEmpty = false →
      jsParseFloat (stripCurrency s) = some (JsNum.finite q) →
      (q < 0 →
        validateAmount s = AmountResult.invalid "Amount cannot be negative") ∧
      (¬ q < 0 → (999999999999 : Rat) < q →
        validateAmount s =
          AmountResult.invalid "Amount too large (max 999 billion)") ∧
      (¬ q < 0 → ¬ (999999999999 : Rat) < q →
        validateAmount s = AmountResult.ok (jsNumToString (JsNum.finite q)) ∧
        jsParseFloat (jsNumToString (JsNum.finite q)) =
          some (JsNum.finite q) ∧
        (∀ c ∈ (jsNumToString (JsNum.finite q)).data,
          isStrippedChar c = false))) ∧
    validateAmount "$1,234.50" = AmountResult.ok "1234.5" := by
  refine ⟨?_, ?_, ?_, ?_, by decide⟩
  · intro h
    simp [validateAmount, h]
  · intro h1 h2
    simp [validateAmount, h1, h2]
  · intro b h1 h2
    cases b
    · simp [validateAmount, h1, h2, jsNumIsNeg, jsNumGtCap]
    · simp [validateAmount, h1, h2, jsNumIsNeg]
  · intro q h1 h2
    refine ⟨?_, ?_, ?_⟩
    · intro hneg
      have hb : jsNumIsNeg (JsNum.finite q) = true :=
        (jsNumIsNeg_iff q).mpr hneg
      simp [validateAmount, h1, h2, hb]
    · intro hneg hcap
      have hb : jsNumIsNeg (JsNum.finite q) = false := by
        rw [Bool.eq_false_iff]
        intro hc
        exact hneg ((jsNumIsNeg_iff q).mp hc)
      have hcapb : jsNumGtCap (JsNum.finite q) = true :=
        (jsNumGtCap_iff q).mpr hcap
      simp [validateAmount, h1, h2, hb, hcapb]
    · intro hneg hcap
      have hb : jsNumIsNeg (JsNum.finite q) = false := by
        rw [Bool.eq_false_iff]
        intro hc
        exact hneg ((jsNumIsNeg_iff q).mp hc)
      have hcapb : jsNumGtCap (JsNum.finite q) = false := by
        rw [Bool.eq_false_iff]
        intro hc
        exact hcap ((jsNumGtCap_iff q).mp hc)
      have hok : validateAmount s =
          AmountResult.ok (jsNumToString (JsNum.finite q)) := by
        simp [validateAmount, h1, h2, hb, hcapb]
      refine ⟨hok, ?_, fun c hc => jsNumToString_finite_not_stripped q c hc⟩
      have hnum : 0 ≤ q.num := by
        rw [Rat.num_nonneg]
        exact le_of_not_lt hneg
      obtain ⟨j, hj⟩ := jsParseFloat_den_pow10 _ q h2
      exact jsParseFloat_ratToString q hnum (pow10Exp_dvd q.den j hj)

theorem claim_C4_witness :
    validateAmount "7.25" =
      AmountResult.ok (jsNumToString (JsNum.finite (mkRat 725 100))) :=
  ((((claim_C4_amount_validation "7.25").2.2.2.1 (mkRat 725 100)
    (by decide) (by decide)).2.2) (by decide) (by decide)).1

/-- An account row (`accounts` table). -/
structure Account where
  id : String
  user_id : String
deriving DecidableEq, Repr

/-- A profile row (`profiles` table). -/
structure Profile where
  id : String
  subscription_status : String
  monthly_usage : Int
deriving DecidableEq, Repr

/-- A batch row (`batches` table). -/
structure Batch where
  id : String
  account_id : String
  file_count : Int
  total_pages : Int
  csv_format : String
  status : String
  processed_at : Option String
deriving DecidableEq, Repr

/-- An extraction row as read by the completion route (`extractions`
table, `id`/`batch_id` columns). -/
structure BatchExtraction where
  id : String
  batch_id : String
deriving DecidableEq, Repr

/-- The persistent state the batch routes read and write.  Database reads
and writes are assumed to succeed (the source's 500-error paths for
infrastructure failures are not modelled). -/
structure DB where
  accounts : List Account
  profiles : List Profile
  batches : List Batch
  extractions : List BatchExtraction
deriving DecidableEq, Repr

/-- Response of the completion route. -/
inductive CompleteResult where
  | ok (extractionsCount : Nat) (pagesProcessed : Int)
  | err (code : Nat) (msg : String)
deriving DecidableEq, Repr

/-- Ownership join `accounts!inner(user_id)`: the batch's account belongs
to the requesting user. -/
def batchOwned (db : DB) (userId : String) (b : Batch) : Bool :=
  db.accounts.any fun a => a.id == b.account_id && a.user_id == userId

/-- The batch lookup of the completion route: by id, filtered by
ownership. -/
def findBatchOwned (db : DB) (batchId userId : String) : Option Batch :=
  db.batches.find? fun b => b.id == batchId && batchOwned db userId b

/-- Modelled from the spec: the `update_monthly_usage` stored procedure is
a database function not present in src/; per the spec's usage accounting,
it adds the processed page count to the user's monthly usage counter. -/
def update_monthly_usage (db : DB) (userId : String) (pages : Int) : DB :=
  { db with profiles := db.profiles.map fun p =>
      if p.id == userId then
        { p with monthly_usage := p.monthly_usage + pages }
      else p }

/-- The batch update of the completion route: set status to completed and
stamp `processed_at`. -/
def setBatchCompleted (db : DB) (batchId now : String) : DB :=
  { db with batches := db.batches.map fun b =>
      if b.id == batchId then
        { b with status := "completed", processed_at := some now }
      else b }

/-- Shallow embedding of the POST handler of
`src/app/api/batch-processing/complete/route.ts` (authentication is
modelled by the `userId` parameter; the usage-RPC error that the source
merely logs is not modelled). -/
def completeBatch (db : DB) (userId batchId now : String) :
    CompleteResult × DB :=
  if batchId == "" then (CompleteResult.err 400 "Missing batchId", db)
  else
    match findBatchOwned db batchId userId with
    | none => (CompleteResult.err 403 "Batch not found or access denied", db)
    | some batch =>
      if batch.status != "processing" then
        (CompleteResult.err 400 "Batch is not in processing status", db)
      else
        let extractions := db.extractions.filter fun e => e.batch_id == batchId
        let db1 := setBatchCompleted db batchId now
        let db2 := update_monthly_usage db1 userId batch.total_pages
        (CompleteResult.ok extractions.length batch.total_pages, db2)

/-- The user's monthly usage counter (0 when no profile row exists). -/
def usageOf (db : DB) (userId : String) : Int :=
  (((db.profiles.find? fun p => p.id == userId)).map
    Profile.monthly_usage).getD 0

/-- Status of a batch row by id. -/
def batchStatusOf (db : DB) (batchId : String) : Option String :=
  ((db.batches.find? fun b => b.id == batchId)).map Batch.status

/-- Does a profile row exist for the user? -/
def profileExists (db : DB) (userId : String) : Bool :=
  db.profiles.any fun p => p.id == userId

/-- Response of the batch-creation route. -/
inductive CreateResult where
  | ok (batchId : String)
  | err (code : Nat) (msg : String)
deriving DecidableEq, Repr

/-- JavaScript truthiness for an optional number (`!x` is true when the
field is absent, null or zero). -/
def intFalsy : Option Int → Bool
  | none => true
  | some n => n == 0

/-- Modelled from the spec: the `check_usage_limit` stored procedure is a
database function not present in src/; per the spec's admission rule,
`monthly_usage + additional_pages` must not exceed 1500. -/
def check_usage_limit (db : DB) (userId : String) (pages : Int) : Bool :=
  decide (usageOf db userId + pages ≤ 1500)

def newBatch (newId accountId : String) (fileCount totalPages : Int)
    (fmt : String) : Batch :=
  { id := newId, account_id := accountId, file_count := fileCount,
    total_pages := totalPages, csv_format := fmt, status := "processing",
    processed_at := none }

/-- Shallow embedding of the POST handler of the batch-creation route
(`src/unnamed/part_002`): field validation, account ownership,
subscription and usage checks, then insertion of a `processing` batch
(the database-generated row id is the `newId` parameter; authentication
is modelled by `userId`). -/
def createBatch (db : DB) (userId newId : String)
    (accountId : Option String) (fileCount totalPages : Option Int)
    (csvFormat : Option String) : CreateResult × DB :=
  if jsFalsy accountId || intFalsy fileCount || intFalsy totalPages ||
      jsFalsy csvFormat then
    (CreateResult.err 400
      "Missing required fields: accountId, fileCount, totalPages, csvFormat",
      db)
  else if fileCount.getD 0 > 10 then
    (CreateResult.err 400 "Maximum 10 files allowed per batch", db)
  else if !(["3-column", "4-column"].contains (csvFormat.getD "")) then
    (CreateResult.err 400 "Invalid CSV format. Must be 3-column or 4-column",
      db)
  else
    match db.accounts.find? fun a =>
        a.id == accountId.getD "" && a.user_id == userId with
    | none => (CreateResult.err 403
        "The selected account could not be found. Please refresh the page and try again.",
        db)
    | some _ =>
      match db.profiles.find? fun p => p.id == userId with
      | none => (CreateResult.err 404 "Profile not found", db)
      | some profile =>
        if profile.subscription_status != "active" then
          (CreateResult.err 403
            "Active subscription required for batch processing", db)
        else if !check_usage_limit db userId (totalPages.getD 0) then
          (CreateResult.err 400
            "This batch would exceed your monthly limit of 1500 pages", db)
        else
          (CreateResult.ok newId,
            { db with batches := db.batches ++
              [newBatch newId (accountId.getD "") (fileCount.getD 0)
                (totalPages.getD 0) (csvFormat.getD "")] })

theorem find?_setCompleted (accs : List Account) (bs : List Batch)
    (batchId userId now : String) (b : Batch)
    (h : bs.find? (fun x => x.id == batchId &&
        accs.any fun a => a.id == x.account_id && a.user_id == userId) =
      some b) :
    (bs.map fun x => if x.id == batchId then
        { x with status := "completed", processed_at := some now }
      else x).find?
      (fun x => x.id == batchId &&
        accs.any fun a => a.id == x.account_id && a.user_id == userId) =
      some { b with status := "completed", processed_at := some now } := by
  induction bs with
  | nil => simp at h
  | cons x xs ih =>
    simp only [List.find?_cons, List.map_cons] at h ⊢
    cases hx : (x.id == batchId &&
        accs.any fun a => a.id == x.account_id && a.user_id == userId) with
    | true =>
      rw [hx] at h
      dsimp only at h
      injection h with h
      subst h
      have hid : (x.id == batchId) = true := by
        rw [Bool.and_eq_true] at hx
        exact hx.1
      simp only [if_pos hid]
      rw [hx]
    | false =>
      rw [hx] at h
      dsimp only at h
      by_cases hid : (x.id == batchId) = true
      · simp only [if_pos hid]
        rw [hx]
        exact ih h
      · simp only [if_neg hid]
        rw [hx]
        exact ih h

theorem findBatchOwned_after_complete (db : DB) (batchId userId now : String)
    (b : Batch) (h : findBatchOwned db batchId userId = some b) :
    findBatchOwned (setBatchCompleted db batchId now) batchId userId =
      some { b with status := "completed", processed_at := some now } :=
  find?_setCompleted db.accounts db.batches batchId userId now b h

theorem usageOf_update_profiles (ps : List Profile) (userId : String)
    (pages : Int) (hp : (ps.any fun p => p.id == userId) = true) :
    (((ps.map fun p => if p.id == userId then
        { p with monthly_usage := p.monthly_usage + pages } else p).find?
      fun p => p.id == userId).map Profile.monthly_usage).getD 0 =
    (((ps.find? fun p => p.id == userId)).map Profile.monthly_usage).getD 0 +
      pages := by
  induction ps with
  | nil => simp at hp
  | cons x xs ih =>
    simp only [List.find?_cons, List.map_cons]
    cases hx : (x.id == userId) with
    | true =>
      simp [hx]
    | false =>
      simp only [Bool.false_eq_true, if_false]
      rw [hx]
      apply ih
      rcases List.any_eq_true.mp hp with ⟨p, hmem, hpeq⟩
      rcases List.mem_cons.mp hmem with rfl | hmem'
      · rw [hpeq] at hx
        cases hx
      · exact List.any_eq_true.mpr ⟨p, hmem', hpeq⟩

theorem usageOf_update (db : DB) (userId : String) (pages : Int)
    (hp : profileExists db userId = true) :
    usageOf (update_monthly_usage db userId pages) userId =
      usageOf db userId + pages :=
  usageOf_update_profiles db.profiles userId pages hp

/-- C6: a batch-completion request succeeds only when the target batch is
currently in processing status and owned by the requester; a request
against a batch in any other status (completed, failed) is rejected with
the state unchanged, so the monthly usage increment is not applied again;
on the successful processing-to-completed transition `total_pages` is
added once, and an immediately retried completion is rejected leaving the
counter at exactly one increment. -/
theorem claim_C6_completion_once (db : DB) (u bid now now2 : String)
    (batch : Batch) (hbid : bid ≠ "")
    (hfound : findBatchOwned db bid u = some batch) :
    (batch.status ≠ "processing" →
      completeBatch db u bid now =
        (CompleteResult.err 400 "Batch is not in processing status", db)) ∧
    (batch.status = "processing" → profileExists db u = true →
      usageOf (completeBatch db u bid now).2 u =
        usageOf db u + batch.total_pages ∧
      (completeBatch (completeBatch db u bid now).2 u bid now2).1 =
        CompleteResult.err 400 "Batch is not in processing status" ∧
      usageOf (completeBatch (completeBatch db u bid now).2 u bid now2).2 u =
        usageOf db u + batch.total_pages) := by
  have hbidb : (bid == "") = false := beq_eq_false_iff_ne.mpr hbid
  constructor
  · intro hstat
    have hb : (batch.status != "processing") = true := by
      rw [bne_iff_ne]
      exact hstat
    simp only [completeBatch, hbidb, Bool.false_eq_true, if_false, hfound, hb,
      if_true]
  · intro hstat hprof
    have hb : (batch.status != "processing") = false := by
      rw [hstat]
      simp
    have hstep : completeBatch db u bid now =
        (CompleteResult.ok
          (db.extractions.filter fun e => e.batch_id == bid).length
          batch.total_pages,
         update_monthly_usage (setBatchCompleted db bid now) u
           batch.total_pages) := by
      simp only [completeBatch, hbidb, Bool.false_eq_true, if_false, hfound,
        hb]
    have husage1 : usageOf (update_monthly_usage (setBatchCompleted db bid now)
        u batch.total_pages) u = usageOf db u + batch.total_pages := by
      have hp2 : profileExists (setBatchCompleted db bid now) u = true := hprof
      rw [usageOf_update _ _ _ hp2]
      rfl
    obtain ⟨b2, hb2def⟩ : ∃ b2 : Batch, ({ batch with status := "completed", processed_at := some now } : Batch) = b2 := ⟨_, rfl⟩
    have hfound2 : findBatchOwned (update_monthly_usage
        (setBatchCompleted db bid now) u batch.total_pages) bid u =
        some b2 := by
      rw [← hb2def]
      exact findBatchOwned_after_complete db bid u now batch hfound
    have hb2stat : b2.status = "completed" := by
      rw [← hb2def]
    have hb2 : (b2.status != "processing") = true := by
      rw [hb2stat]
      decide
    have hstep2 : completeBatch (update_monthly_usage
        (setBatchCompleted db bid now) u batch.total_pages) u bid now2 =
        (CompleteResult.err 400 "Batch is not in processing status",
         update_monthly_usage (setBatchCompleted db bid now) u
           batch.total_pages) := by
      simp only [completeBatch, hbidb, Bool.false_eq_true, if_false, hfound2,
        hb2, if_true]
    rw [hstep]
    exact ⟨husage1, by rw [hstep2], by rw [hstep2]; exact husage1⟩

/-- A concrete database state with one active user, one account and one
batch in processing status, used to exercise the completion route. -/
def db6 : DB :=
  { accounts := [{ id := "a1", user_id := "u1" }],
    profiles := [{ id := "u1", subscription_status := "active",
                   monthly_usage := 10 }],
    batches := [{ id := "b1", account_id := "a1", file_count := 2,
                  total_pages := 5, csv_format := "3-column",
                  status := "processing", processed_at := none }],
    extractions := [{ id := "e1", batch_id := "b1" },
                    { id := "e2", batch_id := "b1" }] }

/-- The processing batch stored in db6. -/
def db6batch : Batch :=
  { id := "b1", account_id := "a1", file_count := 2, total_pages := 5,
    csv_format := "3-column", status := "processing", processed_at := none }

theorem claim_C6_witness :
    usageOf (completeBatch db6 "u1" "b1" "t1").2 "u1" =
      usageOf db6 "u1" + db6batch.total_pages ∧
    (completeBatch (completeBatch db6 "u1" "b1" "t1").2 "u1" "b1" "t2").1 =
      CompleteResult.err 400 "Batch is not in processing status" ∧
    usageOf (completeBatch (completeBatch db6 "u1" "b1" "t1").2 "u1" "b1"
      "t2").2 "u1" = usageOf db6 "u1" + db6batch.total_pages :=
  (claim_C6_completion_once db6 "u1" "b1" "t1" "t2" db6batch (by decide)
    (by decide)).2 (by decide) (by decide)

/-- A concrete database state with one active user and one owned account,
ready to accept a new batch, used to exercise the creation route. -/
def db7 : DB :=
  { accounts := [{ id := "a1", user_id := "u1" }],
    profiles := [{ id := "u1", subscription_status := "active",
                   monthly_usage := 0 }],
    batches := [],
    extractions := [] }

/-- C7 counterexample: the claim says every file count outside [1,10] is
rejected, but the creation route only checks `!fileCount` (which catches 0
and missing) and `fileCount > 10`; a negative file count such as -1 is
admitted and a batch record is created. -/
theorem claim_C7_counterexample :
    (createBatch db7 "u1" "nb" (some "a1") (some (-1)) (some 3)
      (some "3-column")).1 = CreateResult.ok "nb" ∧
    (createBatch db7 "u1" "nb" (some "a1") (some (-1)) (some 3)
      (some "3-column")).2.batches.length = db7.batches.length + 1 := by
  decide

/-- C7 (corrected): batch admission rejects a missing or zero file count
(as a missing required field) and any file count greater than 10, in each
case returning a 400 validation error and leaving the database unchanged;
negative file counts are not rejected. -/
theorem claim_C7_admission_bounds (db : DB) (userId newId : String)
    (accountId : Option String) (fileCount totalPages : Option Int)
    (csvFormat : Option String)
    (h : fileCount = none ∨ fileCount = some 0 ∨
      ∃ n : Int, fileCount = some n ∧ n > 10) :
    ∃ msg, createBatch db userId newId accountId fileCount totalPages
      csvFormat = (CreateResult.err 400 msg, db) := by
  obtain h | h | ⟨n, hn, hgt⟩ := h
  · subst h
    have hf : intFalsy (none : Option Int) = true := rfl
    unfold createBatch
    rw [if_pos (by rw [hf]; simp)]
    exact ⟨_, rfl⟩
  · subst h
    have hf : intFalsy (some (0 : Int)) = true := by decide
    unfold createBatch
    rw [if_pos (by rw [hf]; simp)]
    exact ⟨_, rfl⟩
  · subst hn
    unfold createBatch
    by_cases hc : (jsFalsy accountId || intFalsy (some n) ||
        intFalsy totalPages || jsFalsy csvFormat) = true
    · rw [if_pos hc]
      exact ⟨_, rfl⟩
    · rw [if_neg hc, if_pos (show ((some n).getD 0) > 10 from hgt)]
      exact ⟨_, rfl⟩

theorem claim_C7_witness :
    ∃ msg, createBatch db7 "u1" "nb" (some "a1") (some 11) (some 3)
      (some "3-column") = (CreateResult.err 400 msg, db7) :=
  claim_C7_admission_bounds db7 "u1" "nb" (some "a1") (some 11) (some 3)
    (some "3-column") (Or.inr (Or.inr ⟨11, rfl, by decide⟩))

/-- A concrete database state with a processing batch of file_count 3 for
which only one extraction record has been ingested. -/
def db8 : DB :=
  { accounts := [{ id := "a1", user_id := "u1" }],
    profiles := [{ id := "u1", subscription_status := "active",
                   monthly_usage := 0 }],
    batches := [{ id := "b1", account_id := "a1", file_count := 3,
                  total_pages := 5, csv_format := "3-column",
                  status := "processing", processed_at := none }],
    extractions := [{ id := "e1", batch_id := "b1" }] }

/-- C8 (code bug): the claim and the spec say a batch transitions to
completed only after an extraction record exists for each of its
file_count files, but the completion route never compares the fetched
extraction count with file_count: on db8 the batch has file_count 3 and
only 1 ingested extraction, yet completion succeeds and the batch status
becomes completed. -/
theorem claim_C8_no_ingestion_check :
    ((db8.batches.find? fun b => b.id == "b1").map Batch.file_count) =
      some 3 ∧
    (db8.extractions.filter fun e => e.batch_id == "b1").length = 1 ∧
    (completeBatch db8 "u1" "b1" "t1").1 = CompleteResult.ok 1 5 ∧
    batchStatusOf (completeBatch db8 "u1" "b1" "t1").2 "b1" =
      some "completed" := by
  decide
